import Mathlib

/-!
Verification of the `track` delivery orchestrator and PR monitor.

Shallow embedding of the Go sources:
  * `internal/cli/dispatch.go`  — `runDispatch`, `ensureDispatchPR`, `issueSlug`
  * `internal/cli/github.go` (and its current revision) — `normalizePRRef`,
    `summarizeChecks`, `isFailureState`, `isPendingState`,
    `runGHWatchOnce`, `newGHWatchCmd` loop
  * `internal/store/sqlite/github.go` — `ListGitHubLinks`

Strings are modelled as Lean `String`/`List Char`; Go byte/rune distinctions
do not matter for the inputs considered because every character the code
treats specially is ASCII.  Unicode-aware Go helpers (`strings.ToLower`,
`strings.TrimSpace`) are modelled by their ASCII restrictions, which agree
with Go on every character class the code branches on.
-/

namespace Track

/-- Whitespace test used to model Go `strings.TrimSpace` (ASCII fragment). -/
def goIsSpace (c : Char) : Bool :=
  c == ' ' || c == '\t' || c == '\n' || c == '\r' || c == '\x0b' || c == '\x0c'

/-- Model of Go `strings.TrimSpace` on rune lists. -/
def goTrimSpaceL (l : List Char) : List Char :=
  ((l.dropWhile goIsSpace).reverse.dropWhile goIsSpace).reverse

/-- Model of Go `strings.TrimSpace` on strings. -/
def goTrimSpace (s : String) : String :=
  ⟨goTrimSpaceL s.data⟩

/-- Model of Go `strings.ToLower` (ASCII fragment, see header comment). -/
def goToLower (s : List Char) : List Char :=
  s.map Char.toLower

/-- Model of Go `strings.Trim(s, "-")`. -/
def trimDashes (l : List Char) : List Char :=
  ((l.dropWhile (· == '-')).reverse.dropWhile (· == '-')).reverse

/-- Model of Go `strings.Contains` (substring test). -/
def containsSub (l sub : List Char) : Bool :=
  l.tails.any (fun t => sub.isPrefixOf t)

/-- ASCII lowercase-letter test from `issueSlug` (`r >= 'a' && r <= 'z'`). -/
def slugIsAlpha (r : Char) : Bool := 'a' ≤ r && r ≤ 'z'

/-- ASCII digit test from `issueSlug` (`r >= '0' && r <= '9'`). -/
def slugIsDigit (r : Char) : Bool := '0' ≤ r && r ≤ '9'

/-- Extra allowed punctuation from `issueSlug` (`r == '.' || r == '_' || r == '-'`). -/
def slugIsAllowed (r : Char) : Bool := r == '.' || r == '_' || r == '-'

/-- Character class of the characters `issueSlug` may emit. -/
def slugChar (r : Char) : Bool := slugIsAlpha r || slugIsDigit r || slugIsAllowed r

/-- The builder loop of `issueSlug` (dispatch.go). State: emitted runes `b`
and the `prevDash` flag; each input rune is either kept, replaced by a
single separating dash, or skipped. -/
def slugFold : List Char → List Char → Bool → List Char
  | [], b, _ => b
  | r :: rs, b, prevDash =>
    if slugIsAlpha r || slugIsDigit r || slugIsAllowed r then
      if r == '-' then
        if prevDash then slugFold rs b prevDash
        else slugFold rs (b ++ [r]) true
      else slugFold rs (b ++ [r]) false
    else
      if !prevDash && b.length > 0 then slugFold rs (b ++ ['-']) true
      else slugFold rs b prevDash

/-- Core of `issueSlug` before the empty-result fallback. -/
def issueSlugCore (issueID : String) : List Char :=
  trimDashes (slugFold (goToLower (goTrimSpaceL issueID.data)) [] false)

/-- Model of `issueSlug` (dispatch.go): lowercase, keep `[a-z0-9._-]`,
collapse other runs to single dashes, trim dashes, fall back to `issue`. -/
def issueSlug (issueID : String) : String :=
  let slug := issueSlugCore issueID
  if slug = [] then "issue" else ⟨slug⟩

/-- Predicate: no two adjacent dashes. -/
def noConsecDash : List Char → Bool
  | [] => true
  | [_] => true
  | a :: b :: rest => !(a == '-' && b == '-') && noConsecDash (b :: rest)

/-- Relation form of `noConsecDash`: adjacent characters are never both dashes. -/
def NoDD (a b : Char) : Prop := ¬(a = '-' ∧ b = '-')

end Track

namespace Track

example : issueSlug "TRK-1" = "trk-1" := by decide
example : issueSlug "  Hello World! " = "hello-world" := by decide
example : issueSlug "@@@" = "issue" := by decide
example : issueSlug "" = "issue" := by decide
example : issueSlug "--a--b--" = "a-b" := by decide

lemma slugChar_toNat {c : Char} (h : slugChar c = true) :
    (97 ≤ c.toNat ∧ c.toNat ≤ 122) ∨ (48 ≤ c.toNat ∧ c.toNat ≤ 57) ∨
      c.toNat = 46 ∨ c.toNat = 95 ∨ c.toNat = 45 := by
  simp only [slugChar, slugIsAlpha, slugIsDigit, slugIsAllowed, Bool.or_eq_true,
    Bool.and_eq_true, decide_eq_true_eq, beq_iff_eq] at h
  rcases h with (⟨h1, h2⟩ | ⟨h1, h2⟩) | ((h | h) | h)
  · exact Or.inl ⟨Char.le_def.mp h1, Char.le_def.mp h2⟩
  · exact Or.inr (Or.inl ⟨Char.le_def.mp h1, Char.le_def.mp h2⟩)
  · subst h; exact Or.inr (Or.inr (Or.inl rfl))
  · subst h; exact Or.inr (Or.inr (Or.inr (Or.inl rfl)))
  · subst h; exact Or.inr (Or.inr (Or.inr (Or.inr rfl)))

lemma slugChar_not_space {c : Char} (h : slugChar c = true) : goIsSpace c = false := by
  have hb := slugChar_toNat h
  simp only [goIsSpace, Bool.or_eq_false_iff, beq_eq_false_iff_ne, ne_eq]
  refine ⟨⟨⟨⟨⟨?_, ?_⟩, ?_⟩, ?_⟩, ?_⟩, ?_⟩ <;> (rintro rfl; revert hb; decide)

lemma slugChar_toLower {c : Char} (h : slugChar c = true) : Char.toLower c = c := by
  have hb := slugChar_toNat h
  unfold Char.toLower
  rw [if_neg]
  omega

lemma noConsecDash_iff {l : List Char} : noConsecDash l = true ↔ l.Chain' NoDD := by
  induction l with
  | nil => simp [noConsecDash]
  | cons a t ih =>
    cases t with
    | nil => simp [noConsecDash]
    | cons b t2 =>
      rw [noConsecDash, List.chain'_cons, Bool.and_eq_true, ih]
      constructor
      · rintro ⟨h1, h2⟩
        refine ⟨?_, h2⟩
        intro ⟨ha, hb⟩
        subst ha; subst hb
        simp at h1
      · rintro ⟨h1, h2⟩
        refine ⟨?_, h2⟩
        simp only [Bool.not_eq_eq_eq_not, Bool.not_true, Bool.and_eq_false_iff,
          beq_eq_false_iff_ne, ne_eq]
        by_cases ha : a = '-'
        · subst ha
          right
          intro hb
          exact h1 ⟨rfl, hb⟩
        · exact Or.inl ha

lemma chain'_concat_noDD {b : List Char} {x : Char} (hb : b.Chain' NoDD)
    (h : x ≠ '-' ∨ b.getLast? ≠ some '-') : (b ++ [x]).Chain' NoDD := by
  rw [List.chain'_append]
  refine ⟨hb, List.chain'_singleton x, ?_⟩
  intro y hy z hz
  simp only [List.head?_cons, Option.mem_def, Option.some.injEq] at hz
  subst hz
  rcases h with h | h
  · exact fun hp => h hp.2
  · intro hp
    apply h
    rw [← hp.1]
    exact hy

/-- The builder loop of `issueSlug` only emits characters in `[a-z0-9._-]`
and never emits two adjacent dashes, given a well-formed starting state. -/
lemma slugFold_inv (l : List Char) :
    ∀ (b : List Char) (pd : Bool),
      (∀ c ∈ b, slugChar c = true) → b.Chain' NoDD →
      (pd = false → b.getLast? ≠ some '-') →
      (∀ c ∈ slugFold l b pd, slugChar c = true) ∧ (slugFold l b pd).Chain' NoDD := by
  induction l with
  | nil => intro b pd hc hch _; exact ⟨hc, hch⟩
  | cons r rs ih =>
    intro b pd hc hch hlast
    rw [slugFold]
    by_cases hr : (slugIsAlpha r || slugIsDigit r || slugIsAllowed r) = true
    · rw [if_pos hr]
      by_cases hdash : (r == '-') = true
      · rw [if_pos hdash]
        rw [beq_iff_eq] at hdash
        subst hdash
        cases pd with
        | true =>
          rw [if_pos rfl]
          exact ih b true hc hch (by simp)
        | false =>
          rw [if_neg (by simp)]
          refine ih (b ++ ['-']) true ?_ ?_ (by simp)
          · intro c hcm
            rcases List.mem_append.mp hcm with hcm | hcm
            · exact hc c hcm
            · simp only [List.mem_singleton] at hcm; subst hcm; decide
          · exact chain'_concat_noDD hch (Or.inr (hlast rfl))
      · rw [if_neg hdash]
        have hdne : r ≠ '-' := by simpa using hdash
        refine ih (b ++ [r]) false ?_ ?_ ?_
        · intro c hcm
          rcases List.mem_append.mp hcm with hcm | hcm
          · exact hc c hcm
          · simp only [List.mem_singleton] at hcm
            subst hcm
            simpa [slugChar] using hr
        · exact chain'_concat_noDD hch (Or.inl hdne)
        · intro _
          rw [List.getLast?_concat]
          simp [hdne]
    · rw [if_neg hr]
      by_cases hsep : (!pd && decide (b.length > 0)) = true
      · rw [if_pos hsep]
        simp only [Bool.and_eq_true, Bool.not_eq_eq_eq_not, Bool.not_true,
          decide_eq_true_eq] at hsep
        refine ih (b ++ ['-']) true ?_ ?_ (by simp)
        · intro c hcm
          rcases List.mem_append.mp hcm with hcm | hcm
          · exact hc c hcm
          · simp only [List.mem_singleton] at hcm; subst hcm; decide
        · exact chain'_concat_noDD hch (Or.inr (hlast hsep.1))
      · rw [if_neg hsep]
        exact ih b pd hc hch hlast

lemma dropWhile_head_false {p : Char → Bool} {l : List Char} {x : Char}
    (h : (l.dropWhile p).head? = some x) : p x = false := by
  induction l with
  | nil => simp at h
  | cons a t ih =>
    rw [List.dropWhile_cons] at h
    by_cases hp : p a = true
    · rw [if_pos hp] at h
      exact ih h
    · rw [if_neg hp] at h
      simp only [List.head?_cons, Option.some.injEq] at h
      subst h
      simpa using hp

lemma dropWhile_eq_self_of_head {p : Char → Bool} {l : List Char}
    (h : ∀ x, l.head? = some x → p x = false) : l.dropWhile p = l := by
  cases l with
  | nil => rfl
  | cons a t =>
    rw [List.dropWhile_cons, if_neg]
    simp [h a rfl]

lemma getLast?_of_suffix {l m : List Char} (h : m <:+ l) (hne : m ≠ []) :
    m.getLast? = l.getLast? := by
  obtain ⟨t, rfl⟩ := h
  rw [List.getLast?_append_of_ne_nil t hne]

/-- Trimming dashes preserves the character class and the no-double-dash
chain, and leaves a list that neither starts nor ends with a dash. -/
lemma trimDashes_props {l : List Char}
    (hc : ∀ c ∈ l, slugChar c = true) (hch : l.Chain' NoDD) :
    (∀ c ∈ trimDashes l, slugChar c = true) ∧ (trimDashes l).Chain' NoDD ∧
      (trimDashes l).head? ≠ some '-' ∧ (trimDashes l).getLast? ≠ some '-' := by
  unfold trimDashes
  set d1 := l.dropWhile (· == '-') with hd1
  set d2 := d1.reverse.dropWhile (· == '-') with hd2
  have hd1suf : d1 <:+ l := List.dropWhile_suffix _
  have hd2suf : d2 <:+ d1.reverse := List.dropWhile_suffix _
  have hmem : ∀ c ∈ d2.reverse, c ∈ l := by
    intro c hcm
    rw [List.mem_reverse] at hcm
    have := hd2suf.subset hcm
    rw [List.mem_reverse] at this
    exact hd1suf.subset this
  have hch1 : d1.Chain' NoDD := hch.suffix hd1suf
  have hch2 : d2.Chain' NoDD := by
    have hrev : d1.reverse.Chain' (flip NoDD) := by
      rw [List.chain'_reverse]
      exact hch1.imp (fun a b h => h)
    have : d2.Chain' (flip NoDD) := hrev.suffix hd2suf
    exact this.imp (fun a b h => fun hp => h ⟨hp.2, hp.1⟩)
  refine ⟨fun c hcm => hc c (hmem c hcm), ?_, ?_, ?_⟩
  · rw [List.chain'_reverse]
    exact hch2.imp (fun a b h => fun hp => h ⟨hp.2, hp.1⟩)
  · rw [List.head?_reverse]
    intro hcon
    by_cases hne : d2 = []
    · rw [hne] at hcon; simp at hcon
    · rw [getLast?_of_suffix hd2suf hne, List.getLast?_reverse] at hcon
      have := dropWhile_head_false (p := (· == '-')) hcon
      simp at this
  · rw [List.getLast?_reverse]
    intro hcon
    have := dropWhile_head_false (p := (· == '-')) hcon
    simp at this

/-- The core slug of any identifier satisfies all slug well-formedness
properties. -/
lemma issueSlugCore_props (s : String) :
    (∀ c ∈ issueSlugCore s, slugChar c = true) ∧ (issueSlugCore s).Chain' NoDD ∧
      (issueSlugCore s).head? ≠ some '-' ∧ (issueSlugCore s).getLast? ≠ some '-' := by
  unfold issueSlugCore
  have hfold := slugFold_inv (goToLower (goTrimSpaceL s.data)) [] false
    (by intro c hc; simp at hc) List.chain'_nil (by intro _; simp)
  exact trimDashes_props hfold.1 hfold.2

lemma map_toLower_eq_self {l : List Char} (hc : ∀ c ∈ l, slugChar c = true) :
    goToLower l = l := by
  unfold goToLower
  induction l with
  | nil => rfl
  | cons a t ih =>
    rw [List.map_cons, slugChar_toLower (hc a (List.mem_cons_self a t)),
      ih (fun c hcm => hc c (List.mem_cons_of_mem a hcm))]

lemma goTrimSpaceL_eq_self {l : List Char} (hc : ∀ c ∈ l, slugChar c = true) :
    goTrimSpaceL l = l := by
  unfold goTrimSpaceL
  rw [dropWhile_eq_self_of_head (fun x hx =>
      slugChar_not_space (hc x (List.mem_of_mem_head? hx))),
    dropWhile_eq_self_of_head (fun x hx =>
      slugChar_not_space (hc x (List.mem_reverse.mp (List.mem_of_mem_head? hx)))),
    List.reverse_reverse]

/-- The slug builder is the identity on an already well-formed slug. -/
lemma slugFold_id (l : List Char) :
    ∀ (b : List Char) (pd : Bool),
      (∀ c ∈ l, slugChar c = true) → l.Chain' NoDD →
      (pd = true → l.head? ≠ some '-') →
      slugFold l b pd = b ++ l := by
  induction l with
  | nil => intro b pd _ _ _; simp [slugFold]
  | cons r rs ih =>
    intro b pd hc hch hhd
    have hr : (slugIsAlpha r || slugIsDigit r || slugIsAllowed r) = true := by
      have := hc r (List.mem_cons_self r rs)
      simpa [slugChar] using this
    rw [slugFold, if_pos hr]
    have hcrs : ∀ c ∈ rs, slugChar c = true :=
      fun c hcm => hc c (List.mem_cons_of_mem r hcm)
    have hchrs : rs.Chain' NoDD := hch.tail
    by_cases hdash : (r == '-') = true
    · rw [if_pos hdash]
      rw [beq_iff_eq] at hdash
      subst hdash
      cases pd with
      | true => exact absurd rfl (hhd rfl)
      | false =>
        rw [if_neg (by simp)]
        rw [ih (b ++ ['-']) true hcrs hchrs ?_, List.append_assoc]
        · rfl
        · intro _ hcon
          cases rs with
          | nil => simp at hcon
          | cons y t =>
            simp only [List.head?_cons, Option.some.injEq] at hcon
            subst hcon
            exact (List.chain'_cons.mp hch).1 ⟨rfl, rfl⟩
    · rw [if_neg hdash]
      rw [ih (b ++ [r]) false hcrs hchrs (by simp), List.append_assoc]
      rfl

/-- `issueSlug` is the identity on a well-formed, nonempty slug. -/
lemma issueSlug_fixed {l : List Char} (hne : l ≠ [])
    (hc : ∀ c ∈ l, slugChar c = true) (hch : l.Chain' NoDD)
    (hh : l.head? ≠ some '-') (hl : l.getLast? ≠ some '-') :
    issueSlug ⟨l⟩ = ⟨l⟩ := by
  have hdata : (⟨l⟩ : String).data = l := rfl
  have h1 : goTrimSpaceL l = l := goTrimSpaceL_eq_self hc
  have h2 : goToLower l = l := map_toLower_eq_self hc
  have h3 : slugFold l [] false = l := by
    have := slugFold_id l [] false hc hch (by intro h; cases h)
    simpa using this
  have h4 : trimDashes l = l := by
    have hinner : l.dropWhile (· == '-') = l :=
      dropWhile_eq_self_of_head (fun x hx => by
        simp only [beq_eq_false_iff_ne, ne_eq]
        intro hcon; subst hcon; exact hh hx)
    have houter : l.reverse.dropWhile (· == '-') = l.reverse :=
      dropWhile_eq_self_of_head (fun x hx => by
        rw [List.head?_reverse] at hx
        simp only [beq_eq_false_iff_ne, ne_eq]
        intro hcon; subst hcon; exact hl hx)
    unfold trimDashes
    rw [hinner, houter, List.reverse_reverse]
  have hcore : issueSlugCore ⟨l⟩ = l := by
    unfold issueSlugCore
    rw [hdata, h1, h2, h3, h4]
  unfold issueSlug
  rw [hcore, if_neg hne]

lemma issueSlug_eq_core {s : String} (h : issueSlugCore s ≠ []) :
    issueSlug s = ⟨issueSlugCore s⟩ := by
  unfold issueSlug
  rw [if_neg h]

lemma issueSlug_eq_fallback {s : String} (h : issueSlugCore s = []) :
    issueSlug s = "issue" := by
  unfold issueSlug
  rw [if_pos h]

/-- C5: for every input string, `issueSlug` returns a non-empty string whose
characters all lie in `[a-z0-9._-]`, with no two consecutive dashes and no
leading or trailing dash; when the normalization leaves nothing, the literal
`issue` is returned. -/
theorem issueSlug_wellformed (s : String) :
    issueSlug s ≠ "" ∧
    (∀ c ∈ (issueSlug s).data, slugChar c = true) ∧
    noConsecDash (issueSlug s).data = true ∧
    (issueSlug s).data.head? ≠ some '-' ∧
    (issueSlug s).data.getLast? ≠ some '-' ∧
    (issueSlugCore s = [] → issueSlug s = "issue") := by
  obtain ⟨hc, hch, hh, hl⟩ := issueSlugCore_props s
  by_cases hcore : issueSlugCore s = []
  · rw [issueSlug_eq_fallback hcore]
    refine ⟨by decide, by decide, by decide, by decide, by decide, fun _ => rfl⟩
  · rw [issueSlug_eq_core hcore]
    have hdata : (⟨issueSlugCore s⟩ : String).data = issueSlugCore s := rfl
    refine ⟨?_, ?_, ?_, ?_, ?_, fun h => absurd h hcore⟩
    · intro hcon
      exact hcore (congrArg String.data hcon)
    · rw [hdata]; exact hc
    · rw [hdata]; exact noConsecDash_iff.mpr hch
    · rw [hdata]; exact hh
    · rw [hdata]; exact hl

/-- Witness for the C5 theorem at a concrete identifier. -/
theorem issueSlug_wellformed_witness :
    issueSlug "TRK 9!!" ≠ "" ∧
    (∀ c ∈ (issueSlug "TRK 9!!").data, slugChar c = true) ∧
    noConsecDash (issueSlug "TRK 9!!").data = true ∧
    (issueSlug "TRK 9!!").data.head? ≠ some '-' ∧
    (issueSlug "TRK 9!!").data.getLast? ≠ some '-' ∧
    (issueSlugCore "TRK 9!!" = [] → issueSlug "TRK 9!!" = "issue") :=
  issueSlug_wellformed "TRK 9!!"

/-- C10: `issueSlug` is idempotent — normalizing an already derived slug
leaves it unchanged. -/
theorem issueSlug_idempotent (s : String) :
    issueSlug (issueSlug s) = issueSlug s := by
  obtain ⟨hc, hch, hh, hl⟩ := issueSlugCore_props s
  by_cases hcore : issueSlugCore s = []
  · rw [issueSlug_eq_fallback hcore]
    decide
  · rw [issueSlug_eq_core hcore]
    exact issueSlug_fixed hcore hc hch hh hl

/-! ### The shared pull-request reference parser (`normalizePRRef`) -/

/-- Model of applying the anchored regex `([0-9]+)$` with
`FindStringSubmatch`: the engine tries each start position left to right,
and the greedy digit run followed by the end anchor matches at a position
iff the whole remaining suffix is nonempty and consists of digits. -/
def prNumberSearch : List Char → Option (List Char)
  | [] => none
  | c :: rest =>
    if (c :: rest).all Char.isDigit then some (c :: rest)
    else prNumberSearch rest

/-- Model of `normalizePRRef` (github.go): trim, then return the regex
capture when the pattern matches, the trimmed input otherwise. -/
def normalizePRRef (v : String) : String :=
  let t := goTrimSpaceL v.data
  if t = [] then ⟨t⟩
  else
    match prNumberSearch t with
    | some m => ⟨m⟩
    | none => ⟨t⟩

/-- Modelled from the claim text: the maximal trailing run of decimal
digits of a character list. -/
def trailingDigits (l : List Char) : List Char :=
  (l.reverse.takeWhile Char.isDigit).reverse

lemma takeWhile_eq_self_of_all {p : Char → Bool} {l : List Char}
    (h : ∀ x ∈ l, p x = true) : l.takeWhile p = l := by
  induction l with
  | nil => rfl
  | cons a t ih =>
    rw [List.takeWhile_cons, if_pos (h a (List.mem_cons_self a t)),
      ih (fun x hx => h x (List.mem_cons_of_mem a hx))]

lemma trailingDigits_of_all {l : List Char} (h : l.all Char.isDigit = true) :
    trailingDigits l = l := by
  unfold trailingDigits
  rw [takeWhile_eq_self_of_all, List.reverse_reverse]
  intro x hx
  exact List.all_eq_true.mp h x (List.mem_reverse.mp hx)

lemma takeWhile_length_eq_iff {p : Char → Bool} {l : List Char} :
    (l.takeWhile p).length = l.length ↔ l.all p = true := by
  constructor
  · intro h
    have heq : l.takeWhile p = l :=
      (List.takeWhile_prefix p).eq_of_length h
    rw [List.all_eq_true]
    intro x hx
    rw [← heq] at hx
    exact List.mem_takeWhile_imp hx
  · intro h
    rw [takeWhile_eq_self_of_all (List.all_eq_true.mp h)]

lemma trailingDigits_cons_of_not_all {c : Char} {rest : List Char}
    (h : (c :: rest).all Char.isDigit = false) :
    trailingDigits (c :: rest) = trailingDigits rest := by
  unfold trailingDigits
  rw [List.reverse_cons, List.takeWhile_append]
  by_cases hall : rest.all Char.isDigit = true
  · rw [if_pos (takeWhile_length_eq_iff.mpr (by
      rw [List.all_eq_true]
      intro x hx
      exact List.all_eq_true.mp hall x (List.mem_reverse.mp hx)))]
    have hc : Char.isDigit c = false := by
      rw [List.all_cons, Bool.and_eq_false_iff] at h
      rcases h with h | h
      · exact h
      · exact absurd hall (by simp [h])
    rw [List.takeWhile_cons, if_neg (by simp [hc]), List.append_nil,
      takeWhile_eq_self_of_all (fun x hx =>
        List.all_eq_true.mp hall x (List.mem_reverse.mp hx))]
  · rw [if_neg]
    intro hcon
    apply hall
    have hlen : (List.takeWhile Char.isDigit rest.reverse).length =
        rest.reverse.length := by simpa using hcon
    have := takeWhile_length_eq_iff.mp hlen
    rw [List.all_eq_true] at this ⊢
    intro x hx
    exact this x (List.mem_reverse.mpr hx)

/-- The regex search model computes exactly the maximal trailing digit run. -/
lemma prNumberSearch_eq_trailing (l : List Char) :
    prNumberSearch l = if trailingDigits l = [] then none else some (trailingDigits l) := by
  induction l with
  | nil => simp [prNumberSearch, trailingDigits]
  | cons c rest ih =>
    rw [prNumberSearch]
    by_cases hall : (c :: rest).all Char.isDigit = true
    · rw [if_pos hall, trailingDigits_of_all hall, if_neg (by simp)]
    · rw [if_neg hall, ih, trailingDigits_cons_of_not_all (by simpa using hall)]

/-- C6: `normalizePRRef` returns the maximal trailing digit run of the
trimmed input when one exists, and the trimmed input otherwise; the three
documented examples evaluate as stated. -/
theorem normalizePRRef_spec (s : String) :
    normalizePRRef s =
      (if trailingDigits (goTrimSpaceL s.data) = []
        then (⟨goTrimSpaceL s.data⟩ : String)
        else ⟨trailingDigits (goTrimSpaceL s.data)⟩) ∧
    normalizePRRef "123" = "123" ∧
    normalizePRRef " https://github.com/a/b/pull/456 " = "456" ∧
    normalizePRRef "owner/repo#789" = "789" := by
  refine ⟨?_, by decide, by decide, by decide⟩
  unfold normalizePRRef
  by_cases ht : goTrimSpaceL s.data = []
  · rw [if_pos ht, ht]
    simp [trailingDigits]
  · rw [if_neg ht, prNumberSearch_eq_trailing]
    by_cases htd : trailingDigits (goTrimSpaceL s.data) = []
    · rw [if_pos htd, if_pos htd]
    · rw [if_neg htd, if_neg htd]

/-! ### Check-state classification (`summarizeChecks`, github.go) -/

/-- Model of the `ghCheck` JSON payload: name, raw state, link. -/
structure GhCheck where
  name : String
  state : String
  link : String
deriving DecidableEq, Repr

/-- Normalization applied to a state before the switch:
`strings.ToLower(strings.TrimSpace(state))`. -/
def stateNorm (state : String) : String :=
  ⟨goToLower (goTrimSpaceL state.data)⟩

/-- Model of `isFailureState` (the switch cases of github.go). -/
def isFailureState (state : String) : Bool :=
  ["failure", "failed", "error", "timed_out", "cancelled", "action_required",
    "startup_failure"].contains (stateNorm state)

/-- Model of `isPendingState` (the switch cases of github.go). -/
def isPendingState (state : String) : Bool :=
  ["pending", "queued", "in_progress", "waiting", "requested"].contains (stateNorm state)

/-- The loop body of `summarizeChecks`: early return on the first failure,
an accumulator records whether any pending state was seen. -/
def summarizeLoop : List GhCheck → Bool → String
  | [], hasPending => if hasPending then "pending" else "success"
  | c :: rest, hasPending =>
    if isFailureState c.state then "failure"
    else if isPendingState c.state then summarizeLoop rest true
    else summarizeLoop rest hasPending

/-- Model of `summarizeChecks` (github.go). -/
def summarizeChecks (checks : List GhCheck) : String :=
  if checks = [] then "pending" else summarizeLoop checks false

/-- Modelled from the claim text: aggregate classification by the listed
failure states, then the listed pending states, else success; empty list
is pending. -/
def summarizeChecksSpec (checks : List GhCheck) : String :=
  if checks = [] then "pending"
  else if checks.any (fun c =>
    ["failure", "failed", "error", "timed_out", "cancelled", "action_required",
      "startup_failure"].contains (stateNorm c.state)) then "failure"
  else if checks.any (fun c =>
    ["pending", "queued", "in_progress", "waiting", "requested"].contains
      (stateNorm c.state)) then "pending"
  else "success"

lemma summarizeLoop_eq (checks : List GhCheck) :
    ∀ hp : Bool, summarizeLoop checks hp =
      if checks.any (fun c => isFailureState c.state) then "failure"
      else if hp || checks.any (fun c => isPendingState c.state) then "pending"
      else "success" := by
  induction checks with
  | nil =>
    intro hp
    cases hp <;> simp [summarizeLoop]
  | cons c t ih =>
    intro hp
    rw [summarizeLoop]
    by_cases hf : isFailureState c.state = true
    · rw [if_pos hf]
      simp [hf]
    · rw [if_neg hf]
      by_cases hpd : isPendingState c.state = true
      · rw [if_pos hpd, ih]
        simp [hpd, hf]
      · rw [if_neg hpd, ih]
        simp [hpd, hf]

/-- C7: `summarizeChecks` returns `failure` when any check state is in the
failure class, else `pending` when any is in the pending class, else
`success`; the empty list summarizes to `pending`. -/
theorem summarizeChecks_spec (checks : List GhCheck) :
    summarizeChecks checks = summarizeChecksSpec checks ∧
    summarizeChecks [] = "pending" := by
  refine ⟨?_, rfl⟩
  unfold summarizeChecks summarizeChecksSpec
  by_cases hnil : checks = []
  · rw [if_pos hnil, if_pos hnil]
  · rw [if_neg hnil, if_neg hnil, summarizeLoop_eq]
    rfl

/-! ### The dispatch orchestrator (`runDispatch`, dispatch.go)

The orchestrator is modelled as a function of an environment that answers
every external dependency (store calls, hook runs, captured and interactive
commands, the few filesystem probes).  Each modelled operation returns its
result together with a trace delta of events; `runCmd`,
`runInteractiveCmd`, `addStatusCmd` and `hookEvent` events record that the
call was issued (whether or not it succeeded), while `setStatus` records a
store update that actually succeeded. -/

/-- Fields of `issue.Item` the orchestrator reads. -/
structure Item where
  id : String
  title : String
  status : String
deriving DecidableEq, Repr

def statusInProgress : String := "in_progress"

def statusDone : String := "done"

def dispatchFinishedStatus : String := "finished"

def hookIssueUpdated : String := "issue.updated"

def hookIssueStatusChange : String := "issue.status_changed"

def hookIssueCompleted : String := "issue.completed"

/-- Observable events of one dispatch run. -/
inductive DEvent where
  | runCmd (dir name : String) (args : List String)
  | runInteractiveCmd (dir name : String) (args : List String)
  | setStatus (issueID status : String)
  | addStatusCmd (status : String)
  | hookEvent (event issueID : String)
  | printLine (s : String)
deriving DecidableEq, Repr

/-- Outcome of the `os.Stat(worktreeDir)` probe. -/
inductive WorktreeStat where
  | isDir
  | notDir
  | absent
  | statError (msg : String)
deriving DecidableEq, Repr

/-- Environment: responses of the store, the hook subsystem, the command
runner interface and the filesystem probes used by `runDispatch`. -/
structure DispatchEnv where
  getIssue : String → Except String Item
  updateIssue : String → String → Except String Item
  addStatus : String → Except String Unit
  runHook : String → String → Except String Unit
  run : String → String → List String → Except String String
  runInteractive : String → String → List String → Except String Unit
  mkdirWorktree : Except String Unit
  statWorktree : WorktreeStat
  runnerScriptPresent : Bool

/-- The caller-supplied flags of the dispatch subcommand. -/
structure DispatchOptions where
  runner : String
  mode : String
  base : String
  mergeMethod : String
  noMerge : Bool
deriving DecidableEq, Repr

/-- Sequencing of two traced computations; the second runs only when the
first succeeded and the traces concatenate. -/
def stepSeq {α β : Type} (x : Except String α × List DEvent)
    (f : α → Except String β × List DEvent) : Except String β × List DEvent :=
  match x with
  | (Except.ok a, tr) =>
    match f a with
    | (r, tr2) => (r, tr ++ tr2)
  | (Except.error e, tr) => (Except.error e, tr)

def stepBanner (i : Nat) (name : String) : DEvent :=
  DEvent.printLine ("step " ++ toString i ++ ": " ++ name)

def stepFailLine (i : Nat) (name msg : String) : DEvent :=
  DEvent.printLine ("failed step " ++ toString i ++ " (" ++ name ++ "): " ++ msg)

/-- The `runStep` wrapper of dispatch.go: print a banner, run the body,
report a failed step. -/
def runStepT {α : Type} (i : Nat) (name : String)
    (body : Except String α × List DEvent) : Except String α × List DEvent :=
  match body with
  | (Except.ok a, tr) => (Except.ok a, stepBanner i name :: tr)
  | (Except.error e, tr) =>
    (Except.error e, stepBanner i name :: (tr ++ [stepFailLine i name e]))

/-- Model of `updateIssueStatus` (dispatch.go): store update followed by
the `issue.updated` and `issue.status_changed` hooks, plus
`issue.completed` when the destination status is `done`. -/
def updateIssueStatusT (env : DispatchEnv) (issueID status : String) :
    Except String Unit × List DEvent :=
  match env.updateIssue issueID status with
  | Except.error e => (Except.error e, [])
  | Except.ok updated =>
    let tr := [DEvent.setStatus issueID status,
      DEvent.hookEvent hookIssueUpdated updated.id]
    match env.runHook hookIssueUpdated updated.id with
    | Except.error e => (Except.error e, tr)
    | Except.ok _ =>
      let tr := tr ++ [DEvent.hookEvent hookIssueStatusChange updated.id]
      match env.runHook hookIssueStatusChange updated.id with
      | Except.error e => (Except.error e, tr)
      | Except.ok _ =>
        if status = statusDone then
          let tr := tr ++ [DEvent.hookEvent hookIssueCompleted updated.id]
          match env.runHook hookIssueCompleted updated.id with
          | Except.error e => (Except.error e, tr)
          | Except.ok _ => (Except.ok (), tr)
        else (Except.ok (), tr)

/-- Model of `ensureFinishedStatus` (dispatch.go): register the custom
`finished` status, tolerating an already-exists error. -/
def ensureFinishedStatusT (env : DispatchEnv) : Except String Unit × List DEvent :=
  let tr := [DEvent.addStatusCmd dispatchFinishedStatus]
  match env.addStatus dispatchFinishedStatus with
  | Except.ok _ => (Except.ok (), tr)
  | Except.error e =>
    if containsSub (goToLower e.data) "status already exists".data then (Except.ok (), tr)
    else (Except.error e, tr)

/-- Step 1 of `runDispatch`: fetch the issue, set it in-progress, ensure
the `finished` status exists. -/
def dispatchStep1 (env : DispatchEnv) (issueID : String) :
    Except String Item × List DEvent :=
  match env.getIssue issueID with
  | Except.error e => (Except.error e, [])
  | Except.ok it =>
    stepSeq (updateIssueStatusT env issueID statusInProgress) (fun _ =>
      stepSeq (ensureFinishedStatusT env) (fun _ => (Except.ok it, [])))

/-- Step 2 of `runDispatch`: resolve the repository root and make sure the
branch worktree exists, reusing an existing directory or branch. Returns
`(repoRoot, worktreeDir, branch)`. -/
def dispatchStep2 (env : DispatchEnv) (cwd issueID : String) (opts : DispatchOptions) :
    Except String (String × String × String) × List DEvent :=
  let revParse := ["rev-parse", "--show-toplevel"]
  let tr0 := [DEvent.runCmd cwd "git" revParse]
  match env.run cwd "git" revParse with
  | Except.error e => (Except.error e, tr0)
  | Except.ok root =>
    let repoRoot := goTrimSpace root
    if repoRoot = "" then (Except.error "resolve repository root", tr0)
    else
      let slug := issueSlug issueID
      let branch := "codex/" ++ slug
      let worktreeDir := repoRoot ++ "/.worktree/" ++ slug
      match env.mkdirWorktree with
      | Except.error e => (Except.error e, tr0)
      | Except.ok _ =>
        match env.statWorktree with
        | WorktreeStat.isDir => (Except.ok (repoRoot, worktreeDir, branch), tr0)
        | WorktreeStat.notDir =>
          (Except.error ("worktree path exists and is not a directory: " ++ worktreeDir), tr0)
        | WorktreeStat.statError e => (Except.error e, tr0)
        | WorktreeStat.absent =>
          let showRef := ["show-ref", "--verify", "--quiet", "refs/heads/" ++ branch]
          let tr1 := tr0 ++ [DEvent.runCmd repoRoot "git" showRef]
          match env.run repoRoot "git" showRef with
          | Except.ok _ =>
            let addArgs := ["worktree", "add", worktreeDir, branch]
            let tr2 := tr1 ++ [DEvent.runCmd repoRoot "git" addArgs]
            match env.run repoRoot "git" addArgs with
            | Except.error e => (Except.error e, tr2)
            | Except.ok _ => (Except.ok (repoRoot, worktreeDir, branch), tr2)
          | Except.error _ =>
            let addArgs := ["worktree", "add", "-b", branch, worktreeDir, opts.base]
            let tr2 := tr1 ++ [DEvent.runCmd repoRoot "git" addArgs]
            match env.run repoRoot "git" addArgs with
            | Except.error e => (Except.error e, tr2)
            | Except.ok _ => (Except.ok (repoRoot, worktreeDir, branch), tr2)

/-- Step 3 of `runDispatch`: invoke the implementation runner interactively
inside the worktree, preferring an `exec_<runner>` script in the worktree. -/
def dispatchStep3 (env : DispatchEnv) (issueID : String) (opts : DispatchOptions)
    (worktreeDir : String) : Except String Unit × List DEvent :=
  let runnerCmd :=
    if env.runnerScriptPresent then worktreeDir ++ "/exec_" ++ opts.runner
    else "exec_" ++ opts.runner
  let args := ["--sandbox", "danger-full-access", opts.mode, issueID]
  (env.runInteractive worktreeDir runnerCmd args,
    [DEvent.runInteractiveCmd worktreeDir runnerCmd args])

/-- Model of Go `strconv.Atoi` for the inputs the orchestrator parses
(optional sign and decimal digits; overflow ignored, irrelevant here). -/
def goAtoi (s : String) : Except String Int :=
  match s.data with
  | [] => Except.error ("invalid syntax: " ++ s)
  | c :: rest =>
    let signed := if c = '-' then (true, rest) else if c = '+' then (false, rest)
      else (false, c :: rest)
    if signed.2 = [] then Except.error ("invalid syntax: " ++ s)
    else if signed.2.all Char.isDigit then
      let n : Int := Int.ofNat (signed.2.foldl (fun acc d => acc * 10 + (d.toNat - 48)) 0)
      Except.ok (if signed.1 then -n else n)
    else Except.error ("invalid syntax: " ++ s)

/-- Step 4 of `runDispatch`: detect uncommitted changes and commits ahead
of the base branch. Returns `(hasDirty, hasCommits)`. -/
def dispatchStep4 (env : DispatchEnv) (opts : DispatchOptions) (worktreeDir : String) :
    Except String (Bool × Bool) × List DEvent :=
  let statusArgs := ["status", "--porcelain"]
  let tr0 := [DEvent.runCmd worktreeDir "git" statusArgs]
  match env.run worktreeDir "git" statusArgs with
  | Except.error e => (Except.error e, tr0)
  | Except.ok statusOut =>
    let hasDirty := goTrimSpace statusOut != ""
    let revArgs := ["rev-list", "--count", opts.base ++ "..HEAD"]
    let tr1 := tr0 ++ [DEvent.runCmd worktreeDir "git" revArgs]
    match env.run worktreeDir "git" revArgs with
    | Except.error e => (Except.error e, tr1)
    | Except.ok revOut =>
      match goAtoi (goTrimSpace revOut) with
      | Except.error e => (Except.error ("parse ahead commit count: " ++ e), tr1)
      | Except.ok count => (Except.ok (hasDirty, decide (0 < count)), tr1)

/-- Step 5 of `runDispatch`: stage and commit when the worktree is dirty,
then push the branch with upstream tracking. -/
def dispatchStep5 (env : DispatchEnv) (issueID worktreeDir branch : String)
    (hasDirty : Bool) : Except String Unit × List DEvent :=
  let pushArgs := ["push", "-u", "origin", branch]
  if hasDirty then
    let addArgs := ["add", "-A"]
    let tr0 := [DEvent.runCmd worktreeDir "git" addArgs]
    match env.run worktreeDir "git" addArgs with
    | Except.error e => (Except.error e, tr0)
    | Except.ok _ =>
      let commitMsg := "chore: apply " ++ issueID ++ " via track dispatch"
      let commitArgs := ["commit", "-m", commitMsg]
      let tr1 := tr0 ++ [DEvent.runCmd worktreeDir "git" commitArgs]
      match env.run worktreeDir "git" commitArgs with
      | Except.error e => (Except.error e, tr1)
      | Except.ok _ =>
        let tr2 := tr1 ++ [DEvent.runCmd worktreeDir "git" pushArgs]
        match env.run worktreeDir "git" pushArgs with
        | Except.error e => (Except.error e, tr2)
        | Except.ok _ => (Except.ok (), tr2)
  else
    let tr0 := [DEvent.runCmd worktreeDir "git" pushArgs]
    match env.run worktreeDir "git" pushArgs with
    | Except.error e => (Except.error e, tr0)
    | Except.ok _ => (Except.ok (), tr0)

/-- One element of the decoded `gh pr list --json number` output. -/
structure GhPRListItem where
  number : Int
deriving DecidableEq, Repr

def jsonSkipWs (l : List Char) : List Char :=
  l.dropWhile (fun c => c == ' ' || c == '\t' || c == '\n' || c == '\r')

def parseLit (pat l : List Char) : Option (List Char) :=
  if pat.isPrefixOf l then some (l.drop pat.length) else none

def parseJsonInt (l : List Char) : Option (Int × List Char) :=
  match l with
  | '-' :: rest =>
    let ds := rest.takeWhile Char.isDigit
    if ds = [] then none
    else some (-(Int.ofNat (ds.foldl (fun acc d => acc * 10 + (d.toNat - 48)) 0)),
      rest.drop ds.length)
  | _ =>
    let ds := l.takeWhile Char.isDigit
    if ds = [] then none
    else some (Int.ofNat (ds.foldl (fun acc d => acc * 10 + (d.toNat - 48)) 0),
      l.drop ds.length)

def parsePRObj (l : List Char) : Option (Int × List Char) := do
  let l1 ← parseLit ['\x7b'] (jsonSkipWs l)
  let l2 ← parseLit "\"number\"".data (jsonSkipWs l1)
  let l3 ← parseLit [':'] (jsonSkipWs l2)
  let (n, l4) ← parseJsonInt (jsonSkipWs l3)
  let l5 ← parseLit ['\x7d'] (jsonSkipWs l4)
  pure (n, l5)

def parsePRItems : Nat → List Char → Option (List GhPRListItem × List Char)
  | 0, _ => none
  | fuel + 1, l => do
    let (n, rest) ← parsePRObj l
    match jsonSkipWs rest with
    | ',' :: rest2 =>
      let (ns, r) ← parsePRItems fuel rest2
      pure (⟨n⟩ :: ns, r)
    | rest1 => pure ([⟨n⟩], rest1)

/-- Model of `json.Unmarshal` into `[]ghPRListItem` for the array shapes
`gh pr list --json number` produces (and `null`, which Go decodes to an
empty slice). Any other input is a decode error. -/
def decodePRList (s : String) : Except String (List GhPRListItem) :=
  let l := jsonSkipWs s.data
  if l = "null".data then Except.ok []
  else
    match parseLit ['['] l with
    | none => Except.error "unexpected input"
    | some l1 =>
      let l2 := jsonSkipWs l1
      match parseLit [']'] l2 with
      | some rest =>
        if jsonSkipWs rest = [] then Except.ok [] else Except.error "unexpected input"
      | none =>
        match parsePRItems (l2.length + 1) l2 with
        | none => Except.error "unexpected input"
        | some (ns, r) =>
          match parseLit [']'] (jsonSkipWs r) with
          | none => Except.error "unexpected input"
          | some rest =>
            if jsonSkipWs rest = [] then Except.ok ns else Except.error "unexpected input"

def prListArgs (branch : String) : List String :=
  ["pr", "list", "--head", branch, "--state", "open", "--json", "number"]

def prCreateArgs (branch base title body : String) : List String :=
  ["pr", "create", "--head", branch, "--base", base, "--title", title, "--body", body]

/-- Model of `ensureDispatchPR` (dispatch.go): reuse the first open PR for
the branch, otherwise create one and parse the printed reference. -/
def ensureDispatchPRT (env : DispatchEnv)
    (worktreeDir branch base issueID issueTitle : String) :
    Except String String × List DEvent :=
  let tr0 := [DEvent.runCmd worktreeDir "gh" (prListArgs branch)]
  match env.run worktreeDir "gh" (prListArgs branch) with
  | Except.error e => (Except.error e, tr0)
  | Except.ok listOut =>
    match decodePRList (goTrimSpace listOut) with
    | Except.error e => (Except.error ("decode gh pr list output: " ++ e), tr0)
    | Except.ok prs =>
      match prs with
      | p :: _ => (Except.ok (toString p.number), tr0)
      | [] =>
        let title := issueID ++ ": " ++ issueTitle
        let body := "## Summary\n- Automated by `track dispatch`\n\nCloses " ++ issueID ++ "\n"
        let cargs := prCreateArgs branch base title body
        let tr1 := tr0 ++ [DEvent.runCmd worktreeDir "gh" cargs]
        match env.run worktreeDir "gh" cargs with
        | Except.error e => (Except.error e, tr1)
        | Except.ok createOut =>
          let prRef := normalizePRRef createOut
          if prRef = "" then
            (Except.error "failed to resolve PR number from gh pr create output", tr1)
          else (Except.ok prRef, tr1)

/-- Step 8 of `runDispatch`: block on the CI checks of the PR. -/
def dispatchStep8 (env : DispatchEnv) (worktreeDir prRef : String) :
    Except String Unit × List DEvent :=
  let args := ["pr", "checks", prRef, "--watch"]
  ((env.run worktreeDir "gh" args).map (fun _ => ()),
    [DEvent.runCmd worktreeDir "gh" args])

def mergeMethodFlag (m : String) : String :=
  if m = "squash" then "--squash" else if m = "rebase" then "--rebase" else "--merge"

/-- Step 9 of `runDispatch`: merge the PR with the selected strategy and
delete the remote branch. -/
def dispatchStep9 (env : DispatchEnv) (worktreeDir prRef mergeMethod : String) :
    Except String Unit × List DEvent :=
  let args := ["pr", "merge", prRef, mergeMethodFlag mergeMethod, "--delete-branch"]
  ((env.run worktreeDir "gh" args).map (fun _ => ()),
    [DEvent.runCmd worktreeDir "gh" args])

/-- Model of `runDispatch` (dispatch.go): the ten named steps in order,
with the step-4 early success exit and the `--no-merge` exit. -/
def runDispatch (env : DispatchEnv) (cwd issueID : String) (opts : DispatchOptions) :
    Except String Unit × List DEvent :=
  stepSeq (runStepT 1 "prepare issue status" (dispatchStep1 env issueID)) (fun it =>
  stepSeq (runStepT 2 "prepare worktree" (dispatchStep2 env cwd issueID opts)) (fun wb =>
  stepSeq (runStepT 3 "run implementation runner"
      (dispatchStep3 env issueID opts wb.2.1)) (fun _ =>
  stepSeq (runStepT 4 "detect changes" (dispatchStep4 env opts wb.2.1)) (fun flags =>
  if !flags.1 && !flags.2 then
    (Except.ok (), [DEvent.printLine "no changes detected; skipping commit/push/pr"])
  else
  stepSeq (runStepT 5 "commit and push"
      (dispatchStep5 env issueID wb.2.1 wb.2.2 flags.1)) (fun _ =>
  stepSeq (runStepT 6 "create or reuse PR"
      (ensureDispatchPRT env wb.2.1 wb.2.2 opts.base issueID it.title)) (fun prRef =>
  stepSeq (runStepT 7 "mark issue finished"
      (updateIssueStatusT env issueID dispatchFinishedStatus)) (fun _ =>
  stepSeq (runStepT 8 "watch CI checks" (dispatchStep8 env wb.2.1 prRef)) (fun _ =>
  if opts.noMerge then
    (Except.ok (), [DEvent.printLine "dispatch complete with --no-merge (issue status: finished)"])
  else
  stepSeq (runStepT 9 "merge PR" (dispatchStep9 env wb.2.1 prRef opts.mergeMethod)) (fun _ =>
  stepSeq (runStepT 10 "mark issue done" (updateIssueStatusT env issueID statusDone)) (fun _ =>
  (Except.ok (), [DEvent.printLine ("dispatch complete: " ++ issueID ++ " -> done")])))))))))))

/-- External commands (captured or interactive) recorded in a trace, as
`(directory, program, arguments)` triples. -/
def externalCmds (tr : List DEvent) : List (String × String × List String) :=
  tr.filterMap (fun ev =>
    match ev with
    | DEvent.runCmd dir name args => some (dir, name, args)
    | DEvent.runInteractiveCmd dir name args => some (dir, name, args)
    | _ => none)

/-- Successful store status updates recorded in a trace. -/
def statusUpdates (tr : List DEvent) : List (String × String) :=
  tr.filterMap (fun ev =>
    match ev with
    | DEvent.setStatus id status => some (id, status)
    | _ => none)

/-- C1, amended: in a dispatch run where the worktree is dirty after the
implementation step, the PR list is empty, CI watching succeeds and merge
is not skipped (all store, hook and git operations succeeding),
`runDispatch` returns nil, the status history is in-progress, finished,
done, and the external command sequence after change detection is exactly
git add -A, git commit, git push, gh pr list, gh pr create, gh pr checks
--watch, gh pr merge, in that order. -/
theorem dispatch_full_run (env : DispatchEnv) (cwd issueID : String)
    (opts : DispatchOptions) (it u1 u2 u3 : Item)
    (root so ro oa oc op lo co ow om wt br rc pr : String) (k : Int)
    (hwt : wt = goTrimSpace root ++ "/.worktree/" ++ issueSlug issueID)
    (hbr : br = "codex/" ++ issueSlug issueID)
    (hrc : rc = if env.runnerScriptPresent then wt ++ "/exec_" ++ opts.runner
      else "exec_" ++ opts.runner)
    (hpr : pr = normalizePRRef co)
    (hGet : env.getIssue issueID = Except.ok it)
    (hUpd1 : env.updateIssue issueID statusInProgress = Except.ok u1)
    (hHookU1 : env.runHook hookIssueUpdated u1.id = Except.ok ())
    (hHookS1 : env.runHook hookIssueStatusChange u1.id = Except.ok ())
    (hAdd : env.addStatus dispatchFinishedStatus = Except.ok ())
    (hRev : env.run cwd "git" ["rev-parse", "--show-toplevel"] = Except.ok root)
    (hRoot : goTrimSpace root ≠ "")
    (hMk : env.mkdirWorktree = Except.ok ())
    (hStat : env.statWorktree = WorktreeStat.isDir)
    (hRun3 : env.runInteractive wt rc
      ["--sandbox", "danger-full-access", opts.mode, issueID] = Except.ok ())
    (hStatus : env.run wt "git" ["status", "--porcelain"] = Except.ok so)
    (hDirty : goTrimSpace so ≠ "")
    (hRevList : env.run wt "git"
      ["rev-list", "--count", opts.base ++ "..HEAD"] = Except.ok ro)
    (hCount : goAtoi (goTrimSpace ro) = Except.ok k)
    (hAddA : env.run wt "git" ["add", "-A"] = Except.ok oa)
    (hCommit : env.run wt "git"
      ["commit", "-m", "chore: apply " ++ issueID ++ " via track dispatch"] = Except.ok oc)
    (hPush : env.run wt "git" ["push", "-u", "origin", br] = Except.ok op)
    (hList : env.run wt "gh" (prListArgs br) = Except.ok lo)
    (hDecode : decodePRList (goTrimSpace lo) = Except.ok [])
    (hCreate : env.run wt "gh"
      (prCreateArgs br opts.base (issueID ++ ": " ++ it.title)
        ("## Summary\n- Automated by `track dispatch`\n\nCloses " ++ issueID ++ "\n")) = Except.ok co)
    (hRef : pr ≠ "")
    (hUpd2 : env.updateIssue issueID dispatchFinishedStatus = Except.ok u2)
    (hHookU2 : env.runHook hookIssueUpdated u2.id = Except.ok ())
    (hHookS2 : env.runHook hookIssueStatusChange u2.id = Except.ok ())
    (hChecks : env.run wt "gh" ["pr", "checks", pr, "--watch"] = Except.ok ow)
    (hNoMerge : opts.noMerge = false)
    (hMerge : env.run wt "gh"
      ["pr", "merge", pr, mergeMethodFlag opts.mergeMethod, "--delete-branch"] = Except.ok om)
    (hUpd3 : env.updateIssue issueID statusDone = Except.ok u3)
    (hHookU3 : env.runHook hookIssueUpdated u3.id = Except.ok ())
    (hHookS3 : env.runHook hookIssueStatusChange u3.id = Except.ok ())
    (hHookC3 : env.runHook hookIssueCompleted u3.id = Except.ok ()) :
    (runDispatch env cwd issueID opts).1 = Except.ok () ∧
    statusUpdates (runDispatch env cwd issueID opts).2 =
      [(issueID, statusInProgress), (issueID, dispatchFinishedStatus), (issueID, statusDone)] ∧
    externalCmds (runDispatch env cwd issueID opts).2 =
      [(cwd, "git", ["rev-parse", "--show-toplevel"]),
       (wt, rc, ["--sandbox", "danger-full-access", opts.mode, issueID]),
       (wt, "git", ["status", "--porcelain"]),
       (wt, "git", ["rev-list", "--count", opts.base ++ "..HEAD"]),
       (wt, "git", ["add", "-A"]),
       (wt, "git", ["commit", "-m", "chore: apply " ++ issueID ++ " via track dispatch"]),
       (wt, "git", ["push", "-u", "origin", br]),
       (wt, "gh", prListArgs br),
       (wt, "gh", prCreateArgs br opts.base (issueID ++ ": " ++ it.title)
         ("## Summary\n- Automated by `track dispatch`\n\nCloses " ++ issueID ++ "\n")),
       (wt, "gh", ["pr", "checks", pr, "--watch"]),
       (wt, "gh", ["pr", "merge", pr, mergeMethodFlag opts.mergeMethod, "--delete-branch"])] := by
  have hne1 : ¬(statusInProgress = statusDone) := by decide
  have hne2 : ¬(dispatchFinishedStatus = statusDone) := by decide
  have hDirtyB : (goTrimSpace so != "") = true := bne_iff_ne.mpr hDirty
  subst hwt hbr hrc hpr
  refine ⟨?_, ?_, ?_⟩ <;>
    simp [runDispatch, dispatchStep1, dispatchStep2, dispatchStep3, dispatchStep4,
      dispatchStep5, ensureDispatchPRT, dispatchStep8, dispatchStep9, updateIssueStatusT,
      ensureFinishedStatusT, stepSeq, runStepT,
      hGet, hUpd1, hHookU1, hHookS1, hAdd, hRev, hMk, hStat, hRun3, hStatus, hRevList, hCount,
      hAddA, hCommit, hPush, hList, hDecode, hCreate, hUpd2, hHookU2, hHookS2, hChecks,
      hNoMerge, hMerge, hUpd3, hHookU3, hHookS3, hHookC3, hne1, hne2, hDirtyB, hRoot, hRef,
      Except.map, statusUpdates, externalCmds, stepBanner, stepFailLine]

/-- C2: when the status query is empty after trimming and the ahead-of-base
count is 0, `runDispatch` returns nil, issues no push, PR list, PR create
or merge command (the command list stops at the rev-list query), and the
only status update is the step-1 transition to in-progress. -/
theorem dispatch_no_changes (env : DispatchEnv) (cwd issueID : String)
    (opts : DispatchOptions) (it u1 : Item)
    (root so ro wt rc : String) (k : Int)
    (hwt : wt = goTrimSpace root ++ "/.worktree/" ++ issueSlug issueID)
    (hrc : rc = if env.runnerScriptPresent then wt ++ "/exec_" ++ opts.runner
      else "exec_" ++ opts.runner)
    (hGet : env.getIssue issueID = Except.ok it)
    (hUpd1 : env.updateIssue issueID statusInProgress = Except.ok u1)
    (hHookU1 : env.runHook hookIssueUpdated u1.id = Except.ok ())
    (hHookS1 : env.runHook hookIssueStatusChange u1.id = Except.ok ())
    (hAdd : env.addStatus dispatchFinishedStatus = Except.ok ())
    (hRev : env.run cwd "git" ["rev-parse", "--show-toplevel"] = Except.ok root)
    (hRoot : goTrimSpace root ≠ "")
    (hMk : env.mkdirWorktree = Except.ok ())
    (hStat : env.statWorktree = WorktreeStat.isDir)
    (hRun3 : env.runInteractive wt rc
      ["--sandbox", "danger-full-access", opts.mode, issueID] = Except.ok ())
    (hStatus : env.run wt "git" ["status", "--porcelain"] = Except.ok so)
    (hClean : goTrimSpace so = "")
    (hRevList : env.run wt "git"
      ["rev-list", "--count", opts.base ++ "..HEAD"] = Except.ok ro)
    (hCount : goAtoi (goTrimSpace ro) = Except.ok k)
    (hZero : k = 0) :
    (runDispatch env cwd issueID opts).1 = Except.ok () ∧
    statusUpdates (runDispatch env cwd issueID opts).2 = [(issueID, statusInProgress)] ∧
    externalCmds (runDispatch env cwd issueID opts).2 =
      [(cwd, "git", ["rev-parse", "--show-toplevel"]),
       (wt, rc, ["--sandbox", "danger-full-access", opts.mode, issueID]),
       (wt, "git", ["status", "--porcelain"]),
       (wt, "git", ["rev-list", "--count", opts.base ++ "..HEAD"])] := by
  have hne1 : ¬(statusInProgress = statusDone) := by decide
  subst hwt hrc hZero
  refine ⟨?_, ?_, ?_⟩ <;>
    simp [runDispatch, dispatchStep1, dispatchStep2, dispatchStep3, dispatchStep4,
      updateIssueStatusT, ensureFinishedStatusT, stepSeq, runStepT,
      hGet, hUpd1, hHookU1, hHookS1, hAdd, hRev, hMk, hStat, hRun3, hStatus, hRevList, hCount,
      hne1, hClean, hRoot, statusUpdates, externalCmds, stepBanner, stepFailLine]

/-- C3: with the no-merge option set and a successful CI watch,
`runDispatch` returns nil, issues no merge command, and the status history
ends at finished with no later update. -/
theorem dispatch_no_merge (env : DispatchEnv) (cwd issueID : String)
    (opts : DispatchOptions) (it u1 u2 : Item)
    (root so ro oa oc op lo co ow wt br rc pr : String) (k : Int)
    (hwt : wt = goTrimSpace root ++ "/.worktree/" ++ issueSlug issueID)
    (hbr : br = "codex/" ++ issueSlug issueID)
    (hrc : rc = if env.runnerScriptPresent then wt ++ "/exec_" ++ opts.runner
      else "exec_" ++ opts.runner)
    (hpr : pr = normalizePRRef co)
    (hGet : env.getIssue issueID = Except.ok it)
    (hUpd1 : env.updateIssue issueID statusInProgress = Except.ok u1)
    (hHookU1 : env.runHook hookIssueUpdated u1.id = Except.ok ())
    (hHookS1 : env.runHook hookIssueStatusChange u1.id = Except.ok ())
    (hAdd : env.addStatus dispatchFinishedStatus = Except.ok ())
    (hRev : env.run cwd "git" ["rev-parse", "--show-toplevel"] = Except.ok root)
    (hRoot : goTrimSpace root ≠ "")
    (hMk : env.mkdirWorktree = Except.ok ())
    (hStat : env.statWorktree = WorktreeStat.isDir)
    (hRun3 : env.runInteractive wt rc
      ["--sandbox", "danger-full-access", opts.mode, issueID] = Except.ok ())
    (hStatus : env.run wt "git" ["status", "--porcelain"] = Except.ok so)
    (hDirty : goTrimSpace so ≠ "")
    (hRevList : env.run wt "git"
      ["rev-list", "--count", opts.base ++ "..HEAD"] = Except.ok ro)
    (hCount : goAtoi (goTrimSpace ro) = Except.ok k)
    (hAddA : env.run wt "git" ["add", "-A"] = Except.ok oa)
    (hCommit : env.run wt "git"
      ["commit", "-m", "chore: apply " ++ issueID ++ " via track dispatch"] = Except.ok oc)
    (hPush : env.run wt "git" ["push", "-u", "origin", br] = Except.ok op)
    (hList : env.run wt "gh" (prListArgs br) = Except.ok lo)
    (hDecode : decodePRList (goTrimSpace lo) = Except.ok [])
    (hCreate : env.run wt "gh"
      (prCreateArgs br opts.base (issueID ++ ": " ++ it.title)
        ("## Summary\n- Automated by `track dispatch`\n\nCloses " ++ issueID ++ "\n")) = Except.ok co)
    (hRef : pr ≠ "")
    (hUpd2 : env.updateIssue issueID dispatchFinishedStatus = Except.ok u2)
    (hHookU2 : env.runHook hookIssueUpdated u2.id = Except.ok ())
    (hHookS2 : env.runHook hookIssueStatusChange u2.id = Except.ok ())
    (hChecks : env.run wt "gh" ["pr", "checks", pr, "--watch"] = Except.ok ow)
    (hNoMerge : opts.noMerge = true) :
    (runDispatch env cwd issueID opts).1 = Except.ok () ∧
    statusUpdates (runDispatch env cwd issueID opts).2 =
      [(issueID, statusInProgress), (issueID, dispatchFinishedStatus)] ∧
    externalCmds (runDispatch env cwd issueID opts).2 =
      [(cwd, "git", ["rev-parse", "--show-toplevel"]),
       (wt, rc, ["--sandbox", "danger-full-access", opts.mode, issueID]),
       (wt, "git", ["status", "--porcelain"]),
       (wt, "git", ["rev-list", "--count", opts.base ++ "..HEAD"]),
       (wt, "git", ["add", "-A"]),
       (wt, "git", ["commit", "-m", "chore: apply " ++ issueID ++ " via track dispatch"]),
       (wt, "git", ["push", "-u", "origin", br]),
       (wt, "gh", prListArgs br),
       (wt, "gh", prCreateArgs br opts.base (issueID ++ ": " ++ it.title)
         ("## Summary\n- Automated by `track dispatch`\n\nCloses " ++ issueID ++ "\n")),
       (wt, "gh", ["pr", "checks", pr, "--watch"])] := by
  have hne1 : ¬(statusInProgress = statusDone) := by decide
  have hne2 : ¬(dispatchFinishedStatus = statusDone) := by decide
  have hDirtyB : (goTrimSpace so != "") = true := bne_iff_ne.mpr hDirty
  subst hwt hbr hrc hpr
  refine ⟨?_, ?_, ?_⟩ <;>
    simp [runDispatch, dispatchStep1, dispatchStep2, dispatchStep3, dispatchStep4,
      dispatchStep5, ensureDispatchPRT, dispatchStep8, updateIssueStatusT,
      ensureFinishedStatusT, stepSeq, runStepT,
      hGet, hUpd1, hHookU1, hHookS1, hAdd, hRev, hMk, hStat, hRun3, hStatus, hRevList, hCount,
      hAddA, hCommit, hPush, hList, hDecode, hCreate, hUpd2, hHookU2, hHookS2, hChecks,
      hNoMerge, hne1, hne2, hDirtyB, hRoot, hRef,
      Except.map, statusUpdates, externalCmds, stepBanner, stepFailLine]

/-- C4: when the CI watch command fails, `runDispatch` returns that error,
issues no merge command, and the status history ends at the finished
status set in the preceding step. -/
theorem dispatch_ci_failure (env : DispatchEnv) (cwd issueID : String)
    (opts : DispatchOptions) (it u1 u2 : Item)
    (root so ro oa oc op lo co ce wt br rc pr : String) (k : Int)
    (hwt : wt = goTrimSpace root ++ "/.worktree/" ++ issueSlug issueID)
    (hbr : br = "codex/" ++ issueSlug issueID)
    (hrc : rc = if env.runnerScriptPresent then wt ++ "/exec_" ++ opts.runner
      else "exec_" ++ opts.runner)
    (hpr : pr = normalizePRRef co)
    (hGet : env.getIssue issueID = Except.ok it)
    (hUpd1 : env.updateIssue issueID statusInProgress = Except.ok u1)
    (hHookU1 : env.runHook hookIssueUpdated u1.id = Except.ok ())
    (hHookS1 : env.runHook hookIssueStatusChange u1.id = Except.ok ())
    (hAdd : env.addStatus dispatchFinishedStatus = Except.ok ())
    (hRev : env.run cwd "git" ["rev-parse", "--show-toplevel"] = Except.ok root)
    (hRoot : goTrimSpace root ≠ "")
    (hMk : env.mkdirWorktree = Except.ok ())
    (hStat : env.statWorktree = WorktreeStat.isDir)
    (hRun3 : env.runInteractive wt rc
      ["--sandbox", "danger-full-access", opts.mode, issueID] = Except.ok ())
    (hStatus : env.run wt "git" ["status", "--porcelain"] = Except.ok so)
    (hDirty : goTrimSpace so ≠ "")
    (hRevList : env.run wt "git"
      ["rev-list", "--count", opts.base ++ "..HEAD"] = Except.ok ro)
    (hCount : goAtoi (goTrimSpace ro) = Except.ok k)
    (hAddA : env.run wt "git" ["add", "-A"] = Except.ok oa)
    (hCommit : env.run wt "git"
      ["commit", "-m", "chore: apply " ++ issueID ++ " via track dispatch"] = Except.ok oc)
    (hPush : env.run wt "git" ["push", "-u", "origin", br] = Except.ok op)
    (hList : env.run wt "gh" (prListArgs br) = Except.ok lo)
    (hDecode : decodePRList (goTrimSpace lo) = Except.ok [])
    (hCreate : env.run wt "gh"
      (prCreateArgs br opts.base (issueID ++ ": " ++ it.title)
        ("## Summary\n- Automated by `track dispatch`\n\nCloses " ++ issueID ++ "\n")) = Except.ok co)
    (hRef : pr ≠ "")
    (hUpd2 : env.updateIssue issueID dispatchFinishedStatus = Except.ok u2)
    (hHookU2 : env.runHook hookIssueUpdated u2.id = Except.ok ())
    (hHookS2 : env.runHook hookIssueStatusChange u2.id = Except.ok ())
    (hChecks : env.run wt "gh" ["pr", "checks", pr, "--watch"] = Except.error ce) :
    (runDispatch env cwd issueID opts).1 = Except.error ce ∧
    statusUpdates (runDispatch env cwd issueID opts).2 =
      [(issueID, statusInProgress), (issueID, dispatchFinishedStatus)] ∧
    externalCmds (runDispatch env cwd issueID opts).2 =
      [(cwd, "git", ["rev-parse", "--show-toplevel"]),
       (wt, rc, ["--sandbox", "danger-full-access", opts.mode, issueID]),
       (wt, "git", ["status", "--porcelain"]),
       (wt, "git", ["rev-list", "--count", opts.base ++ "..HEAD"]),
       (wt, "git", ["add", "-A"]),
       (wt, "git", ["commit", "-m", "chore: apply " ++ issueID ++ " via track dispatch"]),
       (wt, "git", ["push", "-u", "origin", br]),
       (wt, "gh", prListArgs br),
       (wt, "gh", prCreateArgs br opts.base (issueID ++ ": " ++ it.title)
         ("## Summary\n- Automated by `track dispatch`\n\nCloses " ++ issueID ++ "\n")),
       (wt, "gh", ["pr", "checks", pr, "--watch"])] := by
  have hne1 : ¬(statusInProgress = statusDone) := by decide
  have hne2 : ¬(dispatchFinishedStatus = statusDone) := by decide
  have hDirtyB : (goTrimSpace so != "") = true := bne_iff_ne.mpr hDirty
  subst hwt hbr hrc hpr
  refine ⟨?_, ?_, ?_⟩ <;>
    simp [runDispatch, dispatchStep1, dispatchStep2, dispatchStep3, dispatchStep4,
      dispatchStep5, ensureDispatchPRT, dispatchStep8, updateIssueStatusT,
      ensureFinishedStatusT, stepSeq, runStepT,
      hGet, hUpd1, hHookU1, hHookS1, hAdd, hRev, hMk, hStat, hRun3, hStatus, hRevList, hCount,
      hAddA, hCommit, hPush, hList, hDecode, hCreate, hUpd2, hHookU2, hHookS2, hChecks,
      hne1, hne2, hDirtyB, hRoot, hRef,
      Except.map, statusUpdates, externalCmds, stepBanner, stepFailLine]

/-- Scripted command responses of a dispatch run with a dirty worktree,
empty open-PR list, passing CI and successful merge. -/
def demoRun (args : List String) : Except String String :=
  if args = ["rev-parse", "--show-toplevel"] then Except.ok "/repo"
  else if args = ["status", "--porcelain"] then Except.ok " M a.txt"
  else if args = ["rev-list", "--count", "main..HEAD"] then Except.ok "1"
  else if args.take 2 = ["pr", "list"] then Except.ok "[]"
  else if args.take 2 = ["pr", "create"] then Except.ok "https://github.com/a/b/pull/42"
  else Except.ok ""

def demoEnv : DispatchEnv :=
  { getIssue := fun i => Except.ok ⟨i, "T", "todo"⟩
    updateIssue := fun i s => Except.ok ⟨i, "T", s⟩
    addStatus := fun _ => Except.ok ()
    runHook := fun _ _ => Except.ok ()
    run := fun _ _ args => demoRun args
    runInteractive := fun _ _ _ => Except.ok ()
    mkdirWorktree := Except.ok ()
    statWorktree := WorktreeStat.isDir
    runnerScriptPresent := true }

def demoOpts : DispatchOptions := ⟨"codex", "execution", "main", "merge", false⟩

/-- C1 counterexample: with a dirty worktree the claim conditions hold
(uncommitted changes after the implementation step, CI watch succeeds,
merge not skipped, run returns nil, final status done), yet the external
commands issued after change detection are NOT exactly push, PR list, PR
create, checks-watch, merge: the code first issues `git add -A` and
`git commit`. The first four external commands are rev-parse, the runner,
the status query and the rev-list count, so the commands after change
detection are the suffix from index 4. -/
theorem dispatch_dirty_commands_counterexample :
    goTrimSpace " M a.txt" ≠ "" ∧
    demoOpts.noMerge = false ∧
    (runDispatch demoEnv "/repo" "trk-1" demoOpts).1 = Except.ok () ∧
    statusUpdates (runDispatch demoEnv "/repo" "trk-1" demoOpts).2 =
      [("trk-1", statusInProgress), ("trk-1", dispatchFinishedStatus), ("trk-1", statusDone)] ∧
    ¬((externalCmds (runDispatch demoEnv "/repo" "trk-1" demoOpts).2).drop 4 =
      [("/repo/.worktree/trk-1", "git", ["push", "-u", "origin", "codex/trk-1"]),
       ("/repo/.worktree/trk-1", "gh", prListArgs "codex/trk-1"),
       ("/repo/.worktree/trk-1", "gh", prCreateArgs "codex/trk-1" "main" "trk-1: T"
         "## Summary\n- Automated by `track dispatch`\n\nCloses trk-1\n"),
       ("/repo/.worktree/trk-1", "gh", ["pr", "checks", "42", "--watch"]),
       ("/repo/.worktree/trk-1", "gh", ["pr", "merge", "42", "--merge", "--delete-branch"])]) := by
  refine ⟨by decide, rfl, rfl, rfl, by decide⟩

/-- Witness for the amended C1 theorem at the scripted environment. -/
theorem dispatch_full_run_witness :
    (runDispatch demoEnv "/repo" "trk-1" demoOpts).1 = Except.ok () ∧
    statusUpdates (runDispatch demoEnv "/repo" "trk-1" demoOpts).2 =
      [("trk-1", statusInProgress), ("trk-1", dispatchFinishedStatus), ("trk-1", statusDone)] ∧
    externalCmds (runDispatch demoEnv "/repo" "trk-1" demoOpts).2 =
      [("/repo", "git", ["rev-parse", "--show-toplevel"]),
       ("/repo/.worktree/trk-1", "/repo/.worktree/trk-1/exec_codex",
         ["--sandbox", "danger-full-access", "execution", "trk-1"]),
       ("/repo/.worktree/trk-1", "git", ["status", "--porcelain"]),
       ("/repo/.worktree/trk-1", "git", ["rev-list", "--count", "main..HEAD"]),
       ("/repo/.worktree/trk-1", "git", ["add", "-A"]),
       ("/repo/.worktree/trk-1", "git", ["commit", "-m", "chore: apply trk-1 via track dispatch"]),
       ("/repo/.worktree/trk-1", "git", ["push", "-u", "origin", "codex/trk-1"]),
       ("/repo/.worktree/trk-1", "gh", prListArgs "codex/trk-1"),
       ("/repo/.worktree/trk-1", "gh", prCreateArgs "codex/trk-1" "main" "trk-1: T"
         "## Summary\n- Automated by `track dispatch`\n\nCloses trk-1\n"),
       ("/repo/.worktree/trk-1", "gh", ["pr", "checks", "42", "--watch"]),
       ("/repo/.worktree/trk-1", "gh", ["pr", "merge", "42", "--merge", "--delete-branch"])] := by
  have h := dispatch_full_run demoEnv "/repo" "trk-1" demoOpts
    ⟨"trk-1", "T", "todo"⟩ ⟨"trk-1", "T", statusInProgress⟩
    ⟨"trk-1", "T", dispatchFinishedStatus⟩ ⟨"trk-1", "T", statusDone⟩
    "/repo" " M a.txt" "1" "" "" "" "[]" "https://github.com/a/b/pull/42" "" ""
    "/repo/.worktree/trk-1" "codex/trk-1" "/repo/.worktree/trk-1/exec_codex" "42" 1
    rfl rfl rfl rfl rfl rfl rfl rfl rfl rfl (by decide) rfl rfl rfl rfl (by decide)
    rfl rfl rfl rfl rfl rfl rfl rfl (by decide) rfl rfl rfl rfl rfl rfl rfl rfl rfl rfl
  exact h

def demoRunClean (args : List String) : Except String String :=
  if args = ["rev-parse", "--show-toplevel"] then Except.ok "/repo"
  else if args = ["status", "--porcelain"] then Except.ok ""
  else if args = ["rev-list", "--count", "main..HEAD"] then Except.ok "0"
  else Except.ok ""

def demoEnvClean : DispatchEnv := { demoEnv with run := fun _ _ args => demoRunClean args }

/-- Witness for the C2 theorem at the scripted no-change environment. -/
theorem dispatch_no_changes_witness :
    (runDispatch demoEnvClean "/repo" "trk-1" demoOpts).1 = Except.ok () ∧
    statusUpdates (runDispatch demoEnvClean "/repo" "trk-1" demoOpts).2 =
      [("trk-1", statusInProgress)] ∧
    externalCmds (runDispatch demoEnvClean "/repo" "trk-1" demoOpts).2 =
      [("/repo", "git", ["rev-parse", "--show-toplevel"]),
       ("/repo/.worktree/trk-1", "/repo/.worktree/trk-1/exec_codex",
         ["--sandbox", "danger-full-access", "execution", "trk-1"]),
       ("/repo/.worktree/trk-1", "git", ["status", "--porcelain"]),
       ("/repo/.worktree/trk-1", "git", ["rev-list", "--count", "main..HEAD"])] := by
  have h := dispatch_no_changes demoEnvClean "/repo" "trk-1" demoOpts
    ⟨"trk-1", "T", "todo"⟩ ⟨"trk-1", "T", statusInProgress⟩
    "/repo" "" "0" "/repo/.worktree/trk-1" "/repo/.worktree/trk-1/exec_codex" 0
    rfl rfl rfl rfl rfl rfl rfl rfl (by decide) rfl rfl rfl rfl rfl rfl rfl rfl
  exact h

def demoOptsNoMerge : DispatchOptions := ⟨"codex", "execution", "main", "merge", true⟩

/-- Witness for the C3 theorem at the scripted environment with the
no-merge option. -/
theorem dispatch_no_merge_witness :
    (runDispatch demoEnv "/repo" "trk-1" demoOptsNoMerge).1 = Except.ok () ∧
    statusUpdates (runDispatch demoEnv "/repo" "trk-1" demoOptsNoMerge).2 =
      [("trk-1", statusInProgress), ("trk-1", dispatchFinishedStatus)] ∧
    externalCmds (runDispatch demoEnv "/repo" "trk-1" demoOptsNoMerge).2 =
      [("/repo", "git", ["rev-parse", "--show-toplevel"]),
       ("/repo/.worktree/trk-1", "/repo/.worktree/trk-1/exec_codex",
         ["--sandbox", "danger-full-access", "execution", "trk-1"]),
       ("/repo/.worktree/trk-1", "git", ["status", "--porcelain"]),
       ("/repo/.worktree/trk-1", "git", ["rev-list", "--count", "main..HEAD"]),
       ("/repo/.worktree/trk-1", "git", ["add", "-A"]),
       ("/repo/.worktree/trk-1", "git", ["commit", "-m", "chore: apply trk-1 via track dispatch"]),
       ("/repo/.worktree/trk-1", "git", ["push", "-u", "origin", "codex/trk-1"]),
       ("/repo/.worktree/trk-1", "gh", prListArgs "codex/trk-1"),
       ("/repo/.worktree/trk-1", "gh", prCreateArgs "codex/trk-1" "main" "trk-1: T"
         "## Summary\n- Automated by `track dispatch`\n\nCloses trk-1\n"),
       ("/repo/.worktree/trk-1", "gh", ["pr", "checks", "42", "--watch"])] := by
  have h := dispatch_no_merge demoEnv "/repo" "trk-1" demoOptsNoMerge
    ⟨"trk-1", "T", "todo"⟩ ⟨"trk-1", "T", statusInProgress⟩ ⟨"trk-1", "T", dispatchFinishedStatus⟩
    "/repo" " M a.txt" "1" "" "" "" "[]" "https://github.com/a/b/pull/42" ""
    "/repo/.worktree/trk-1" "codex/trk-1" "/repo/.worktree/trk-1/exec_codex" "42" 1
    rfl rfl rfl rfl rfl rfl rfl rfl rfl rfl (by decide) rfl rfl rfl rfl (by decide)
    rfl rfl rfl rfl rfl rfl rfl rfl (by decide) rfl rfl rfl rfl rfl
  exact h

def demoRunCIFail (args : List String) : Except String String :=
  if args = ["rev-parse", "--show-toplevel"] then Except.ok "/repo"
  else if args = ["status", "--porcelain"] then Except.ok " M a.txt"
  else if args = ["rev-list", "--count", "main..HEAD"] then Except.ok "1"
  else if args.take 2 = ["pr", "list"] then Except.ok "[]"
  else if args.take 2 = ["pr", "create"] then Except.ok "42"
  else if args.take 2 = ["pr", "checks"] then
    Except.error "gh pr checks 42 --watch failed: ci failed"
  else Except.ok ""

def demoEnvCIFail : DispatchEnv := { demoEnv with run := fun _ _ args => demoRunCIFail args }

/-- Witness for the C4 theorem at the scripted environment whose CI watch
fails. -/
theorem dispatch_ci_failure_witness :
    (runDispatch demoEnvCIFail "/repo" "trk-1" demoOpts).1 =
      Except.error "gh pr checks 42 --watch failed: ci failed" ∧
    statusUpdates (runDispatch demoEnvCIFail "/repo" "trk-1" demoOpts).2 =
      [("trk-1", statusInProgress), ("trk-1", dispatchFinishedStatus)] ∧
    externalCmds (runDispatch demoEnvCIFail "/repo" "trk-1" demoOpts).2 =
      [("/repo", "git", ["rev-parse", "--show-toplevel"]),
       ("/repo/.worktree/trk-1", "/repo/.worktree/trk-1/exec_codex",
         ["--sandbox", "danger-full-access", "execution", "trk-1"]),
       ("/repo/.worktree/trk-1", "git", ["status", "--porcelain"]),
       ("/repo/.worktree/trk-1", "git", ["rev-list", "--count", "main..HEAD"]),
       ("/repo/.worktree/trk-1", "git", ["add", "-A"]),
       ("/repo/.worktree/trk-1", "git", ["commit", "-m", "chore: apply trk-1 via track dispatch"]),
       ("/repo/.worktree/trk-1", "git", ["push", "-u", "origin", "codex/trk-1"]),
       ("/repo/.worktree/trk-1", "gh", prListArgs "codex/trk-1"),
       ("/repo/.worktree/trk-1", "gh", prCreateArgs "codex/trk-1" "main" "trk-1: T"
         "## Summary\n- Automated by `track dispatch`\n\nCloses trk-1\n"),
       ("/repo/.worktree/trk-1", "gh", ["pr", "checks", "42", "--watch"])] := by
  have h := dispatch_ci_failure demoEnvCIFail "/repo" "trk-1" demoOpts
    ⟨"trk-1", "T", "todo"⟩ ⟨"trk-1", "T", statusInProgress⟩ ⟨"trk-1", "T", dispatchFinishedStatus⟩
    "/repo" " M a.txt" "1" "" "" "" "[]" "42" "gh pr checks 42 --watch failed: ci failed"
    "/repo/.worktree/trk-1" "codex/trk-1" "/repo/.worktree/trk-1/exec_codex" "42" 1
    rfl rfl rfl rfl rfl rfl rfl rfl rfl rfl (by decide) rfl rfl rfl rfl (by decide)
    rfl rfl rfl rfl rfl rfl rfl rfl (by decide) rfl rfl rfl rfl
  exact h

/-! ### The PR monitor (`runGHWatchOnce` and the watch loop, github.go)

The monitor is modelled like the orchestrator: an environment answers the
gh invocations (command plus JSON decoding folded into one oracle, keyed
by the argument list actually passed to gh), the store queries and the
hooks.  Every modelled function returns its own trace delta; callers
concatenate. -/

/-- Row of the `github_links` table (`sqlite.GitHubLink`); the timestamp
columns are never read by the monitor and are omitted. -/
structure GitHubLink where
  issueID : String
  prRef : String
  repo : String
deriving DecidableEq, Repr

/-- Decoded `gh pr view --json state,mergedAt` payload. -/
structure GhPRState where
  state : String
  mergedAt : Option String
deriving DecidableEq, Repr

/-- Observable events of monitor polls.  `failureNotice` records the
`failure: <name> (<link>)` line printed while processing the link of the
given work item; `ghCommand` records a gh invocation with its arguments. -/
inductive WEvent where
  | ghCommand (args : List String)
  | printLine (s : String)
  | failureNotice (issueID checkName checkLink : String)
  | setStatus (issueID status : String)
  | hookEvent (event issueID : String)
deriving DecidableEq, Repr

/-- Environment of the monitor: gh oracles (exec plus JSON decode),
the persisted link table, the store update and the hook runner. -/
structure WatchEnv where
  checks : List String → Except String (List GhCheck)
  view : List String → Except String GhPRState
  runLog : List String → Except String String
  updateIssue : String → String → Except String Item
  runHook : String → String → Except String Unit
  store : List GitHubLink

/-- Lexicographic order on character lists, modelling SQLite text
ordering for the ASCII issue ids the tracker produces. -/
def charListLe : List Char → List Char → Bool
  | [], _ => true
  | _ :: _, [] => false
  | a :: as, b :: bs =>
    if a.toNat < b.toNat then true
    else if b.toNat < a.toNat then false
    else charListLe as bs

/-- Insertion into a list sorted by issue id, modelling the SQL
`ORDER BY issue_id ASC`. -/
def insertByIssueID (a : GitHubLink) : List GitHubLink → List GitHubLink
  | [] => [a]
  | b :: bs =>
    if charListLe a.issueID.data b.issueID.data then a :: b :: bs
    else b :: insertByIssueID a bs

/-- Sort of the link rows by issue id (insertion sort, chosen so that the
model evaluates by reduction). -/
def sortByIssueID : List GitHubLink → List GitHubLink
  | [] => []
  | a :: as => insertByIssueID a (sortByIssueID as)

/-- Model of `Store.ListGitHubLinks` (sqlite/github.go): optional repo
filter, rows ordered by issue id. -/
def listGitHubLinks (table : List GitHubLink) (repo : String) : List GitHubLink :=
  let rows := if repo = "" then table else table.filter (fun l => l.repo == repo)
  sortByIssueID rows

/-- Model of `repoForLink` (github.go). -/
def repoForLink (link : GitHubLink) (repoOverride : String) : String :=
  if repoOverride ≠ "" then repoOverride else link.repo

def checksArgs (pr repo : String) : List String :=
  ["pr", "checks", pr, "--json", "name,state,link"] ++
    (if repo = "" then [] else ["--repo", repo])

def viewArgs (pr repo : String) : List String :=
  ["pr", "view", pr, "--json", "state,mergedAt"] ++
    (if repo = "" then [] else ["--repo", repo])

def runLogArgs (runID jobID repo : String) : List String :=
  ["run", "view", runID, "--log"] ++ (if jobID = "" then [] else ["--job", jobID]) ++
    (if repo = "" then [] else ["--repo", repo])

/-- One attempted match of the regex `actions/runs/([0-9]+)(?:/job/([0-9]+))?`
at a fixed start position. -/
def runLinkAt (l : List Char) : Option (String × String) :=
  match parseLit "actions/runs/".data l with
  | none => none
  | some l1 =>
    let ds := l1.takeWhile Char.isDigit
    if ds = [] then none
    else
      let rest := l1.drop ds.length
      match parseLit "/job/".data rest with
      | none => some (⟨ds⟩, "")
      | some r2 =>
        let js := r2.takeWhile Char.isDigit
        if js = [] then some (⟨ds⟩, "") else some (⟨ds⟩, ⟨js⟩)

/-- Leftmost match of the run-link regex. -/
def runLinkSearch : List Char → Option (String × String)
  | [] => none
  | c :: rest =>
    match runLinkAt (c :: rest) with
    | some r => some r
    | none => runLinkSearch rest

/-- Model of `parseRunAndJobFromCheckLink` (github.go); a missing job
group yields an empty job id, as `FindStringSubmatch` does. -/
def parseRunAndJobFromCheckLink (link : String) : Option (String × String) :=
  runLinkSearch link.data

/-- Model of `tailLines` (github.go): strip trailing newlines, keep the
last `n` lines. -/
def tailLines (raw : String) (n : Nat) : String :=
  let r : List Char := (raw.data.reverse.dropWhile (· == '\n')).reverse
  if r = [] then ⟨r⟩
  else
    let lines := (String.mk r).split (· == '\n')
    String.intercalate "\n" (lines.drop (lines.length - n))

/-- Model of `fetchFailureCheckLog` (github.go). -/
def fetchFailureCheckLogT (env : WatchEnv) (check : GhCheck) (repo : String) :
    Except String String × List WEvent :=
  match parseRunAndJobFromCheckLink check.link with
  | none => (Except.error ("unsupported check link: " ++ check.link), [])
  | some rj =>
    let args := runLogArgs rj.1 rj.2 repo
    (env.runLog args, [WEvent.ghCommand args])

/-- Composite dedupe key of a failing check (github.go). -/
def dedupeKey (issueID checkName checkLink : String) : String :=
  issueID ++ "::" ++ checkName ++ "::" ++ checkLink

/-- Body of the per-check loop of `runGHWatchOnce`: skip non-failures and
already-seen keys, otherwise record the key, print the notice and try to
fetch the failing job log. -/
def watchCheckStep (env : WatchEnv) (repoOverride : String) (link : GitHubLink)
    (st : List String × List WEvent) (check : GhCheck) : List String × List WEvent :=
  if !isFailureState check.state then st
  else
    let key := dedupeKey link.issueID check.name check.link
    if st.1.contains key then st
    else
      let seen2 := key :: st.1
      let tr2 := st.2 ++ [WEvent.failureNotice link.issueID check.name check.link]
      match fetchFailureCheckLogT env check (repoForLink link repoOverride) with
      | (Except.error e, trlog) =>
        (seen2, tr2 ++ trlog ++ [WEvent.printLine ("log fetch error: " ++ e)])
      | (Except.ok logText, trlog) =>
        (seen2, tr2 ++ trlog ++
          [WEvent.printLine ("--- log: " ++ check.name ++ " ---\n" ++ tailLines logText 200)])

/-- First half of one link iteration of `runGHWatchOnce`: fetch the checks
of the linked PR and report new failures; a fetch error is only logged. -/
def watchLinkChecksPhase (env : WatchEnv) (repoOverride : String) (link : GitHubLink)
    (seen : List String) : List String × List WEvent :=
  let cargs := checksArgs (normalizePRRef link.prRef) (repoForLink link repoOverride)
  match env.checks cargs with
  | Except.error e =>
    (seen, [WEvent.ghCommand cargs,
      WEvent.printLine ("checks error for " ++ link.issueID ++ " (pr " ++ link.prRef ++ "): " ++ e)])
  | Except.ok checks =>
    checks.foldl (watchCheckStep env repoOverride link) (seen, [WEvent.ghCommand cargs])

/-- Second half of one link iteration of `runGHWatchOnce`: query the merge
state of the linked PR and flip the work item to done when merged, firing
the three lifecycle hooks; any error here is fatal to the poll.  This
phase never touches the seen-failure set. -/
def watchLinkMergePhase (env : WatchEnv) (repoOverride : String) (link : GitHubLink) :
    Except String Unit × List WEvent :=
  let pr := normalizePRRef link.prRef
  let vargs := viewArgs pr (repoForLink link repoOverride)
  let tr2 := [WEvent.ghCommand vargs]
  match env.view vargs with
  | Except.error e =>
    (Except.error ("gh pr view failed for " ++ pr ++ ": " ++ e), tr2)
  | Except.ok prState =>
    let merged := prState.mergedAt.isSome ||
      (goToLower prState.state.data == goToLower "MERGED".data)
    if !merged then (Except.ok (), tr2)
    else
      match env.updateIssue link.issueID statusDone with
      | Except.error e => (Except.error e, tr2)
      | Except.ok updated =>
        let tr3 := tr2 ++ [WEvent.setStatus link.issueID statusDone,
          WEvent.hookEvent hookIssueUpdated updated.id]
        match env.runHook hookIssueUpdated updated.id with
        | Except.error e => (Except.error e, tr3)
        | Except.ok _ =>
          let tr4 := tr3 ++ [WEvent.hookEvent hookIssueStatusChange updated.id]
          match env.runHook hookIssueStatusChange updated.id with
          | Except.error e => (Except.error e, tr4)
          | Except.ok _ =>
            let tr5 := tr4 ++ [WEvent.hookEvent hookIssueCompleted updated.id]
            match env.runHook hookIssueCompleted updated.id with
            | Except.error e => (Except.error e, tr5)
            | Except.ok _ =>
              (Except.ok (), tr5 ++
                [WEvent.printLine ("updated " ++ link.issueID ++ " -> done (pr " ++ link.prRef ++ ")")])

/-- Processing of one link inside `runGHWatchOnce`: the checks phase, then
the merge phase. -/
def watchLink (env : WatchEnv) (repoOverride : String) (link : GitHubLink)
    (seen : List String) : Except String Unit × List String × List WEvent :=
  let st1 := watchLinkChecksPhase env repoOverride link seen
  let m := watchLinkMergePhase env repoOverride link
  (m.1, st1.1, st1.2 ++ m.2)

/-- The link loop of `runGHWatchOnce`: sequential, stopping at the first
fatal (merge-state/store/hook) error. -/
def watchLinks (env : WatchEnv) (repoOverride : String) :
    List GitHubLink → List String → Except String Unit × List String × List WEvent
  | [], seen => (Except.ok (), seen, [])
  | l :: ls, seen =>
    match watchLink env repoOverride l seen with
    | (Except.error e, seen1, tr1) => (Except.error e, seen1, tr1)
    | (Except.ok _, seen1, tr1) =>
      match watchLinks env repoOverride ls seen1 with
      | (res, seen2, tr2) => (res, seen2, tr1 ++ tr2)

/-- Model of `runGHWatchOnce` (github.go).  Note that the source calls
`store.ListGitHubLinks(ctx, "")` with the empty string, not with its
`repo` argument; `repo` reaches only the per-link gh commands. -/
def runGHWatchOnce (env : WatchEnv) (repo : String) (seen : List String) :
    Except String Unit × List String × List WEvent :=
  watchLinks env repo (listGitHubLinks env.store "") seen

/-- The watch loop of `newGHWatchCmd`: one seen-failure set shared across
all polls of a process lifetime; poll errors do not clear it and the loop
continues.  Each poll gets its own environment (the table and the gh
responses may change between ticks). -/
def runWatchPolls (repo : String) : List WatchEnv → List String → List String × List WEvent
  | [], seen => (seen, [])
  | e :: es, seen =>
    match runGHWatchOnce e repo seen with
    | (_, seen1, tr1) =>
      match runWatchPolls repo es seen1 with
      | (seen2, tr2) => (seen2, tr1 ++ tr2)

/-- Dedupe keys of the failure notices printed in a trace. -/
def failureKeys (tr : List WEvent) : List String :=
  tr.filterMap (fun ev =>
    match ev with
    | WEvent.failureNotice i n l => some (dedupeKey i n l)
    | _ => none)

/-- The `gh pr checks` invocations recorded in a trace. -/
def checksCmds (tr : List WEvent) : List (List String) :=
  tr.filterMap (fun ev =>
    match ev with
    | WEvent.ghCommand args => if args.take 2 = ["pr", "checks"] then some args else none
    | _ => none)

end Track

namespace Track

/-- Effect of one monitor computation on the seen-failure set and its
trace delta: the set only grows, newly printed failure keys are pairwise
distinct, recorded in the final set, absent from the initial set, and the
delta contains no `gh pr checks` command. -/
def WatchStep (seen seen' : List String) (tr : List WEvent) : Prop :=
  (∀ k, k ∈ seen → k ∈ seen') ∧ (failureKeys tr).Nodup ∧
    (∀ k ∈ failureKeys tr, k ∈ seen' ∧ k ∉ seen) ∧ checksCmds tr = []

lemma failureKeys_append (a b : List WEvent) :
    failureKeys (a ++ b) = failureKeys a ++ failureKeys b := by
  simp [failureKeys, List.filterMap_append]

lemma checksCmds_append (a b : List WEvent) :
    checksCmds (a ++ b) = checksCmds a ++ checksCmds b := by
  simp [checksCmds, List.filterMap_append]

lemma watchStep_comp {s m s2 : List String} {t1 t2 : List WEvent}
    (h1 : WatchStep s m t1) (h2 : WatchStep m s2 t2) : WatchStep s s2 (t1 ++ t2) := by
  obtain ⟨mono1, nd1, mem1, ck1⟩ := h1
  obtain ⟨mono2, nd2, mem2, ck2⟩ := h2
  refine ⟨fun k hk => mono2 k (mono1 k hk), ?_, ?_, ?_⟩
  · rw [failureKeys_append]
    refine List.Nodup.append nd1 nd2 ?_
    intro a ha1 ha2
    exact (mem2 a ha2).2 ((mem1 a ha1).1)
  · intro k hk
    rw [failureKeys_append, List.mem_append] at hk
    rcases hk with hk | hk
    · exact ⟨mono2 k (mem1 k hk).1, (mem1 k hk).2⟩
    · exact ⟨(mem2 k hk).1, fun hcon => (mem2 k hk).2 (mono1 k hcon)⟩
  · rw [checksCmds_append, ck1, ck2]
    rfl

lemma watchStep_of_empty {s : List String} {tr : List WEvent}
    (h1 : failureKeys tr = []) (h2 : checksCmds tr = []) : WatchStep s s tr := by
  refine ⟨fun k hk => hk, ?_, ?_, h2⟩
  · rw [h1]; exact List.nodup_nil
  · rw [h1]; intro k hk; cases hk

lemma fetchLog_trace (env : WatchEnv) (c : GhCheck) (r : String) :
    failureKeys (fetchFailureCheckLogT env c r).2 = [] ∧
      checksCmds (fetchFailureCheckLogT env c r).2 = [] := by
  unfold fetchFailureCheckLogT
  cases parseRunAndJobFromCheckLink c.link with
  | none => exact ⟨rfl, rfl⟩
  | some rj =>
    refine ⟨rfl, ?_⟩
    simp [checksCmds, runLogArgs]

lemma failureKeys_cons_notice (i n l : String) (tr : List WEvent) :
    failureKeys (WEvent.failureNotice i n l :: tr) = dedupeKey i n l :: failureKeys tr := rfl

lemma failureKeys_cons_gh (args : List String) (tr : List WEvent) :
    failureKeys (WEvent.ghCommand args :: tr) = failureKeys tr := rfl

lemma failureKeys_cons_print (s : String) (tr : List WEvent) :
    failureKeys (WEvent.printLine s :: tr) = failureKeys tr := rfl

lemma failureKeys_nil : failureKeys [] = [] := rfl

lemma checksCmds_cons_print (s : String) (tr : List WEvent) :
    checksCmds (WEvent.printLine s :: tr) = checksCmds tr := rfl

lemma checksCmds_cons_notice (i n l : String) (tr : List WEvent) :
    checksCmds (WEvent.failureNotice i n l :: tr) = checksCmds tr := rfl

lemma checksCmds_nil : checksCmds [] = [] := rfl

lemma watchCheckStep_spec (env : WatchEnv) (ro : String) (link : GitHubLink)
    (seen : List String) (tr : List WEvent) (c : GhCheck) :
    ∃ seen' Δ, watchCheckStep env ro link (seen, tr) c = (seen', tr ++ Δ) ∧
      WatchStep seen seen' Δ := by
  unfold watchCheckStep
  by_cases hf : isFailureState c.state = true
  · simp only [hf, Bool.not_true]
    by_cases hc : seen.contains (dedupeKey link.issueID c.name c.link) = true
    · simp only [hc]
      exact ⟨seen, [], by simp, watchStep_of_empty rfl rfl⟩
    · simp only [hc]
      have hmem : dedupeKey link.issueID c.name c.link ∉ seen :=
        fun hcon => hc (List.elem_iff.mpr hcon)
      obtain ⟨hk, hck⟩ := fetchLog_trace env c (repoForLink link ro)
      rcases hres : fetchFailureCheckLogT env c (repoForLink link ro) with ⟨res, trlog⟩
      rw [hres] at hk hck
      dsimp only at hk hck
      have hstep : ∀ tl : WEvent,
          failureKeys (WEvent.failureNotice link.issueID c.name c.link :: (trlog ++ [tl])) =
            dedupeKey link.issueID c.name c.link :: failureKeys (trlog ++ [tl]) := fun _ => rfl
      cases res with
      | error e =>
        refine ⟨dedupeKey link.issueID c.name c.link :: seen,
          WEvent.failureNotice link.issueID c.name c.link ::
            (trlog ++ [WEvent.printLine ("log fetch error: " ++ e)]), by simp, ?_⟩
        have hkeys : failureKeys
            (WEvent.failureNotice link.issueID c.name c.link ::
              (trlog ++ [WEvent.printLine ("log fetch error: " ++ e)])) =
            [dedupeKey link.issueID c.name c.link] := by
          rw [failureKeys_cons_notice, failureKeys_append, hk, failureKeys_cons_print,
            failureKeys_nil]
          rfl
        refine ⟨fun k hk2 => List.mem_cons_of_mem _ hk2, ?_, ?_, ?_⟩
        · rw [hkeys]; exact List.nodup_singleton _
        · intro k hk2
          rw [hkeys, List.mem_singleton] at hk2
          subst hk2
          exact ⟨List.mem_cons_self _ _, hmem⟩
        · rw [checksCmds_cons_notice, checksCmds_append, hck, checksCmds_cons_print,
            checksCmds_nil]
          rfl
      | ok logText =>
        refine ⟨dedupeKey link.issueID c.name c.link :: seen,
          WEvent.failureNotice link.issueID c.name c.link ::
            (trlog ++ [WEvent.printLine ("--- log: " ++ c.name ++ " ---\n" ++
              tailLines logText 200)]), by simp, ?_⟩
        have hkeys : failureKeys
            (WEvent.failureNotice link.issueID c.name c.link ::
              (trlog ++ [WEvent.printLine ("--- log: " ++ c.name ++ " ---\n" ++
                tailLines logText 200)])) =
            [dedupeKey link.issueID c.name c.link] := by
          rw [failureKeys_cons_notice, failureKeys_append, hk, failureKeys_cons_print,
            failureKeys_nil]
          rfl
        refine ⟨fun k hk2 => List.mem_cons_of_mem _ hk2, ?_, ?_, ?_⟩
        · rw [hkeys]; exact List.nodup_singleton _
        · intro k hk2
          rw [hkeys, List.mem_singleton] at hk2
          subst hk2
          exact ⟨List.mem_cons_self _ _, hmem⟩
        · rw [checksCmds_cons_notice, checksCmds_append, hck, checksCmds_cons_print,
            checksCmds_nil]
          rfl
  · simp only [Bool.not_eq_true] at hf
    simp only [hf, Bool.not_false, if_pos]
    exact ⟨seen, [], by simp, watchStep_of_empty rfl rfl⟩

end Track
namespace Track

lemma watchChecksFold_spec (env : WatchEnv) (ro : String) (link : GitHubLink) :
    ∀ (cs : List GhCheck) (seen : List String) (tr : List WEvent),
      ∃ seen' Δ, cs.foldl (watchCheckStep env ro link) (seen, tr) = (seen', tr ++ Δ) ∧
        WatchStep seen seen' Δ := by
  intro cs
  induction cs with
  | nil =>
    intro seen tr
    exact ⟨seen, [], by simp, watchStep_of_empty rfl rfl⟩
  | cons c cs ih =>
    intro seen tr
    obtain ⟨s1, Δ1, he1, hw1⟩ := watchCheckStep_spec env ro link seen tr c
    obtain ⟨s2, Δ2, he2, hw2⟩ := ih s1 (tr ++ Δ1)
    refine ⟨s2, Δ1 ++ Δ2, ?_, watchStep_comp hw1 hw2⟩
    rw [List.foldl_cons, he1, he2, List.append_assoc]

lemma checksPhase_spec (env : WatchEnv) (ro : String) (link : GitHubLink)
    (seen : List String) :
    ∃ Δ, (watchLinkChecksPhase env ro link seen).2 =
        WEvent.ghCommand (checksArgs (normalizePRRef link.prRef) (repoForLink link ro)) :: Δ ∧
      WatchStep seen (watchLinkChecksPhase env ro link seen).1 Δ := by
  rcases hcase : env.checks (checksArgs (normalizePRRef link.prRef) (repoForLink link ro))
    with e | checks
  · refine ⟨[WEvent.printLine ("checks error for " ++ link.issueID ++
      " (pr " ++ link.prRef ++ "): " ++ e)], ?_, ?_⟩
    · simp only [watchLinkChecksPhase, hcase]
    · simp only [watchLinkChecksPhase, hcase]
      exact watchStep_of_empty rfl rfl
  · obtain ⟨s1, Δ1, he1, hw1⟩ := watchChecksFold_spec env ro link checks seen
      [WEvent.ghCommand (checksArgs (normalizePRRef link.prRef) (repoForLink link ro))]
    refine ⟨Δ1, ?_, ?_⟩
    · simp only [watchLinkChecksPhase, hcase, he1]
      rfl
    · simp only [watchLinkChecksPhase, hcase, he1]
      exact hw1

lemma mergePhase_trace (env : WatchEnv) (ro : String) (link : GitHubLink) :
    failureKeys (watchLinkMergePhase env ro link).2 = [] ∧
      checksCmds (watchLinkMergePhase env ro link).2 = [] := by
  rcases h1 : env.view (viewArgs (normalizePRRef link.prRef) (repoForLink link ro))
    with e | prState
  · simp only [watchLinkMergePhase, h1]
    constructor <;> simp [failureKeys, checksCmds, viewArgs]
  · simp only [watchLinkMergePhase, h1]
    split_ifs with hm
    · constructor <;> simp [failureKeys, checksCmds, viewArgs]
    · rcases h2 : env.updateIssue link.issueID statusDone with e | updated
      · simp only [h2]
        constructor <;> simp [failureKeys, checksCmds, viewArgs]
      · simp only [h2]
        rcases h3 : env.runHook hookIssueUpdated updated.id with e | u3
        · simp only [h3]
          constructor <;> simp [failureKeys, checksCmds, viewArgs]
        · simp only [h3]
          rcases h4 : env.runHook hookIssueStatusChange updated.id with e | u4
          · simp only [h4]
            constructor <;> simp [failureKeys, checksCmds, viewArgs]
          · simp only [h4]
            rcases h5 : env.runHook hookIssueCompleted updated.id with e | u5
            · simp only [h5]
              constructor <;> simp [failureKeys, checksCmds, viewArgs]
            · simp only [h5]
              constructor <;> simp [failureKeys, checksCmds, viewArgs]

lemma watchLink_dedupe (env : WatchEnv) (ro : String) (link : GitHubLink)
    (seen : List String) :
    (∀ k, k ∈ seen → k ∈ (watchLink env ro link seen).2.1) ∧
    (failureKeys (watchLink env ro link seen).2.2).Nodup ∧
    (∀ k ∈ failureKeys (watchLink env ro link seen).2.2,
      k ∈ (watchLink env ro link seen).2.1 ∧ k ∉ seen) ∧
    checksCmds (watchLink env ro link seen).2.2 =
      [checksArgs (normalizePRRef link.prRef) (repoForLink link ro)] := by
  obtain ⟨Δ, he, hw⟩ := checksPhase_spec env ro link seen
  obtain ⟨hm1, hm2⟩ := mergePhase_trace env ro link
  obtain ⟨mono, nd, mem, ck⟩ := hw
  simp only [watchLink]
  rw [he]
  have hkeys : failureKeys ((WEvent.ghCommand (checksArgs (normalizePRRef link.prRef)
      (repoForLink link ro)) :: Δ) ++ (watchLinkMergePhase env ro link).2) =
      failureKeys Δ := by
    rw [List.cons_append, failureKeys_cons_gh, failureKeys_append, hm1, List.append_nil]
  have hcmds : checksCmds ((WEvent.ghCommand (checksArgs (normalizePRRef link.prRef)
      (repoForLink link ro)) :: Δ) ++ (watchLinkMergePhase env ro link).2) =
      [checksArgs (normalizePRRef link.prRef) (repoForLink link ro)] := by
    rw [List.cons_append, ← List.singleton_append, checksCmds_append, checksCmds_append,
      ck, hm2, List.append_nil, List.append_nil]
    simp [checksCmds, checksArgs]
  exact ⟨mono, by rw [hkeys]; exact nd, by rw [hkeys]; exact mem, hcmds⟩

end Track
namespace Track

/-- Dedupe part of a monitor step: the seen set grows, newly printed keys
are distinct, recorded, and were not previously seen. -/
def DedupeStep (seen seen' : List String) (tr : List WEvent) : Prop :=
  (∀ k, k ∈ seen → k ∈ seen') ∧ (failureKeys tr).Nodup ∧
    (∀ k ∈ failureKeys tr, k ∈ seen' ∧ k ∉ seen)

lemma dedupeStep_comp {s m s2 : List String} {t1 t2 : List WEvent}
    (h1 : DedupeStep s m t1) (h2 : DedupeStep m s2 t2) : DedupeStep s s2 (t1 ++ t2) := by
  obtain ⟨mono1, nd1, mem1⟩ := h1
  obtain ⟨mono2, nd2, mem2⟩ := h2
  refine ⟨fun k hk => mono2 k (mono1 k hk), ?_, ?_⟩
  · rw [failureKeys_append]
    refine List.Nodup.append nd1 nd2 ?_
    intro a ha1 ha2
    exact (mem2 a ha2).2 ((mem1 a ha1).1)
  · intro k hk
    rw [failureKeys_append, List.mem_append] at hk
    rcases hk with hk | hk
    · exact ⟨mono2 k (mem1 k hk).1, (mem1 k hk).2⟩
    · exact ⟨(mem2 k hk).1, fun hcon => (mem2 k hk).2 (mono1 k hcon)⟩

lemma watchLink_dedupeStep (env : WatchEnv) (ro : String) (link : GitHubLink)
    (seen : List String) :
    DedupeStep seen (watchLink env ro link seen).2.1 (watchLink env ro link seen).2.2 := by
  obtain ⟨h1, h2, h3, _⟩ := watchLink_dedupe env ro link seen
  exact ⟨h1, h2, h3⟩

lemma watchLinks_dedupeStep (env : WatchEnv) (ro : String) :
    ∀ (ls : List GitHubLink) (seen : List String),
      DedupeStep seen (watchLinks env ro ls seen).2.1 (watchLinks env ro ls seen).2.2 := by
  intro ls
  induction ls with
  | nil =>
    intro seen
    exact ⟨fun k hk => hk, List.nodup_nil, by intro k hk; cases hk⟩
  | cons l ls ih =>
    intro seen
    have hd := watchLink_dedupeStep env ro l seen
    rcases hw : watchLink env ro l seen with ⟨res, st⟩
    rcases st with ⟨seen1, tr1⟩
    rw [hw] at hd
    cases res with
    | error e =>
      simp only [watchLinks, hw]
      exact hd
    | ok u =>
      have ht := ih seen1
      rcases hws : watchLinks env ro ls seen1 with ⟨res2, st2⟩
      rcases st2 with ⟨seen2, tr2⟩
      rw [hws] at ht
      simp only [watchLinks, hw, hws]
      exact dedupeStep_comp hd ht

lemma runWatchPolls_dedupeStep (repo : String) :
    ∀ (polls : List WatchEnv) (seen : List String),
      DedupeStep seen (runWatchPolls repo polls seen).1 (runWatchPolls repo polls seen).2 := by
  intro polls
  induction polls with
  | nil =>
    intro seen
    exact ⟨fun k hk => hk, List.nodup_nil, by intro k hk; cases hk⟩
  | cons e es ih =>
    intro seen
    have hd := watchLinks_dedupeStep e repo (listGitHubLinks e.store "") seen
    rcases hw : runGHWatchOnce e repo seen with ⟨res, st⟩
    rcases st with ⟨seen1, tr1⟩
    rw [runGHWatchOnce] at hw
    rw [hw] at hd
    have ht := ih seen1
    rcases hws : runWatchPolls repo es seen1 with ⟨seen2, tr2⟩
    rw [hws] at ht
    simp only [runWatchPolls, runGHWatchOnce, hw, hws]
    exact dedupeStep_comp hd ht

/-- C8: across any sequence of polls sharing one seen-failure set, each
failure dedupe key is printed at most once, and keys already recorded in
the initial set are never printed. -/
theorem ghwatch_failure_dedupe (repo : String) (polls : List WatchEnv)
    (seen0 : List String) :
    (failureKeys (runWatchPolls repo polls seen0).2).Nodup ∧
    List.Disjoint (failureKeys (runWatchPolls repo polls seen0).2) seen0 := by
  obtain ⟨_, nd, mem⟩ := runWatchPolls_dedupeStep repo polls seen0
  refine ⟨nd, ?_⟩
  intro a ha hcon
  exact (mem a ha).2 hcon

lemma watchLinks_checks (env : WatchEnv) (ro : String) :
    ∀ (ls : List GitHubLink) (seen : List String),
      (watchLinks env ro ls seen).1 = Except.ok () →
      checksCmds (watchLinks env ro ls seen).2.2 =
        ls.map (fun l => checksArgs (normalizePRRef l.prRef) (repoForLink l ro)) := by
  intro ls
  induction ls with
  | nil => intro seen _; rfl
  | cons l ls ih =>
    intro seen hok
    obtain ⟨_, _, _, hck⟩ := watchLink_dedupe env ro l seen
    rcases hw : watchLink env ro l seen with ⟨res, st⟩
    rcases st with ⟨seen1, tr1⟩
    rw [hw] at hck
    cases res with
    | error e =>
      rw [watchLinks, hw] at hok
      dsimp only at hok
      cases hok
    | ok u =>
      dsimp only at hck
      rw [watchLinks, hw]
      rw [watchLinks, hw] at hok
      dsimp only at hok ⊢
      have ihh := ih seen1 hok
      rcases hws : watchLinks env ro ls seen1 with ⟨res2, st2⟩
      rcases st2 with ⟨seen2, tr2⟩
      rw [hws] at ihh
      dsimp only at ihh ⊢
      rw [checksCmds_append, hck, ihh, List.map_cons, List.singleton_append]

/-- C9 amended: the repository argument of the monitor does not restrict
which persisted links a poll iterates; when the poll completes without a
fatal error it issues exactly one `gh pr checks` command per link of the
unfiltered store listing, in order, using the repository argument only as
the per-command `--repo` override. -/
theorem ghwatch_iterates_all_links (env : WatchEnv) (repo : String)
    (seen : List String)
    (hok : (runGHWatchOnce env repo seen).1 = Except.ok ()) :
    checksCmds (runGHWatchOnce env repo seen).2.2 =
      (listGitHubLinks env.store "").map
        (fun l => checksArgs (normalizePRRef l.prRef) (repoForLink l repo)) :=
  watchLinks_checks env repo (listGitHubLinks env.store "") seen hok

end Track
namespace Track

/-- Persisted links in two different repositories. -/
def demoLinks : List GitHubLink := [⟨"TRK-1", "7", "a/x"⟩, ⟨"TRK-2", "5", "b/y"⟩]

/-- Monitor environment over `demoLinks`: every PR reports no checks and
an open, unmerged state, so each poll completes without error. -/
def demoWatchEnv : WatchEnv :=
  { checks := fun _ => Except.ok []
    view := fun _ => Except.ok ⟨"OPEN", none⟩
    runLog := fun _ => Except.ok ""
    updateIssue := fun i s => Except.ok ⟨i, "T", s⟩
    runHook := fun _ _ => Except.ok ()
    store := demoLinks }

/-- C9 counterexample: the monitor invoked with repository filter `a/x`
still processes the link of repository `b/y` — the poll issues a
`gh pr checks` command for that link's PR (number 5), with the filter
acting only as the `--repo` override of the command. -/
theorem ghwatch_repo_filter_counterexample :
    (⟨"TRK-2", "5", "b/y"⟩ : GitHubLink) ∈ demoWatchEnv.store ∧
    ("b/y" : String) ≠ "a/x" ∧
    WEvent.ghCommand (checksArgs "5" "a/x") ∈ (runGHWatchOnce demoWatchEnv "a/x" []).2.2 := by
  refine ⟨by decide, by decide, by decide⟩

/-- Witness for the amended C9 theorem at the two-repository store. -/
theorem ghwatch_iterates_all_links_witness :
    checksCmds (runGHWatchOnce demoWatchEnv "a/x" []).2.2 =
      (listGitHubLinks demoWatchEnv.store "").map
        (fun l => checksArgs (normalizePRRef l.prRef) (repoForLink l "a/x")) :=
  ghwatch_iterates_all_links demoWatchEnv "a/x" [] rfl

end Track
